import Mathlib

/-!
# Chain parameters of the amicoin node: founders-reward schedule and parameter registry

A shallow embedding of `src/chainparams.cpp` and of the counter and timer of
`src/metrics.h`.  Functions that can abort (a failing
`assert`) or leave defined behaviour (division by zero, a vector read past its end)
return `Except Failure _`.  C++ `int` values are `Int`, `size_t` values are `Nat`
reduced modulo `2^64` wherever the C++ arithmetic is unsigned.
-/

namespace Amicoin

/-! ## Failures and machine integers -/

/-- The two ways a call can end without a result. -/
inductive Failure
  /-- An `assert(...)` whose condition is false: the process aborts. -/
  | assertion
  /-- Division by zero or `operator[]` past the end of a vector. -/
  | undefinedBehaviour
  deriving DecidableEq, Repr

/-- The two error tiers of the specification: fatal (the process aborts) and
recoverable (a typed error such as a RangeError, surfaced to the caller). -/
inductive ErrorTier
  | fatal
  | recoverable
  deriving DecidableEq, Repr

/-- The tier of a failure of this code: a failing `assert` aborts the process, and
undefined behaviour hands no error to the caller. -/
def Failure.tier : Failure → ErrorTier
  | .assertion => .fatal
  | .undefinedBehaviour => .fatal

/-- The outcome as the specification words it, "fails with a RangeError": the call ends
in an error of the recoverable tier, handed to the caller instead of aborting the
process. -/
def failsWithRangeError {α : Type} (r : Except Failure α) : Bool :=
  match r with
  | .error e => decide (e.tier = .recoverable)
  | .ok _ => false

/-- Largest value of a C++ `int` (32 bits). -/
def INT_MAX : Int := 2 ^ 31 - 1

/-- Smallest value of a C++ `int` (32 bits). -/
def INT_MIN : Int := -(2 ^ 31)

/-- Number of values of `size_t` (64 bits). -/
def SIZE_MODULUS : Nat := 2 ^ 64

/-- An upper bound on the element count of any `std::vector` on a 64-bit target
(`PTRDIFF_MAX`). -/
def VECTOR_MAX_SIZE : Nat := 2 ^ 63 - 1

/-- The implicit conversion of an `int` to `size_t`: the value modulo `2^64`. -/
def toSizeT (x : Int) : Nat := (x % (SIZE_MODULUS : Int)).toNat

/-! ## Data model -/

namespace Consensus

/-- Modelled from the spec: `Consensus::UpgradeIndex`, the ordered enum of protocol
eras; index 0 is the base era and `MAX_NETWORK_UPGRADES` is the upgrade-count bound. -/
inductive UpgradeIndex
  | BASE_SPROUT
  | UPGRADE_TESTDUMMY
  | UPGRADE_OVERWINTER
  | UPGRADE_SAPLING
  | MAX_NETWORK_UPGRADES
  deriving DecidableEq, Repr

/-- The integer value of an enumerator. -/
def UpgradeIndex.toNat : UpgradeIndex → Nat
  | .BASE_SPROUT => 0
  | .UPGRADE_TESTDUMMY => 1
  | .UPGRADE_OVERWINTER => 2
  | .UPGRADE_SAPLING => 3
  | .MAX_NETWORK_UPGRADES => 4

/-- One entry of the upgrade table (`Consensus::NetworkUpgrade`). -/
structure NetworkUpgrade where
  nProtocolVersion : Int
  nActivationHeight : Int
  deriving DecidableEq, Repr

/-- Modelled from the spec: the sentinel `ALWAYS_ACTIVE`, active from genesis
(height 0). -/
def NetworkUpgrade.ALWAYS_ACTIVE : Int := 0

/-- Modelled from the spec: the sentinel `NO_ACTIVATION_HEIGHT`, a reserved value that
is not usable as a block height. -/
def NetworkUpgrade.NO_ACTIVATION_HEIGHT : Int := -1

/-- The array `vUpgrades[MAX_NETWORK_UPGRADES]`: one entry for each index below
`MAX_NETWORK_UPGRADES`. -/
structure UpgradeArray where
  BASE_SPROUT : NetworkUpgrade
  UPGRADE_TESTDUMMY : NetworkUpgrade
  UPGRADE_OVERWINTER : NetworkUpgrade
  UPGRADE_SAPLING : NetworkUpgrade
  deriving DecidableEq, Repr

/-- `vUpgrades[idx]`; `none` past the end of the array. -/
def UpgradeArray.get? (a : UpgradeArray) : UpgradeIndex → Option NetworkUpgrade
  | .BASE_SPROUT => some a.BASE_SPROUT
  | .UPGRADE_TESTDUMMY => some a.UPGRADE_TESTDUMMY
  | .UPGRADE_OVERWINTER => some a.UPGRADE_OVERWINTER
  | .UPGRADE_SAPLING => some a.UPGRADE_SAPLING
  | .MAX_NETWORK_UPGRADES => none

/-- `vUpgrades[idx].nActivationHeight = nActivationHeight`; `none` past the end of the
array. -/
def UpgradeArray.setActivationHeight (a : UpgradeArray) (idx : UpgradeIndex)
    (nActivationHeight : Int) : Option UpgradeArray :=
  match idx with
  | .BASE_SPROUT =>
    some { a with BASE_SPROUT := { a.BASE_SPROUT with nActivationHeight := nActivationHeight } }
  | .UPGRADE_TESTDUMMY =>
    some { a with UPGRADE_TESTDUMMY :=
      { a.UPGRADE_TESTDUMMY with nActivationHeight := nActivationHeight } }
  | .UPGRADE_OVERWINTER =>
    some { a with UPGRADE_OVERWINTER :=
      { a.UPGRADE_OVERWINTER with nActivationHeight := nActivationHeight } }
  | .UPGRADE_SAPLING =>
    some { a with UPGRADE_SAPLING :=
      { a.UPGRADE_SAPLING with nActivationHeight := nActivationHeight } }
  | .MAX_NETWORK_UPGRADES => none

/-- The fields of `Consensus::Params` that `chainparams.cpp` assigns and that the
founders-reward schedule, the upgrade table and the registry read. -/
structure Params where
  fCoinbaseMustBeProtected : Bool
  nSubsidySlowStartInterval : Int
  nSubsidyHalvingInterval : Int
  nMajorityEnforceBlockUpgrade : Int
  nMajorityRejectBlockOutdated : Int
  nMajorityWindow : Int
  powLimit : Nat
  nPowAveragingWindow : Int
  nPowMaxAdjustDown : Int
  nPowMaxAdjustUp : Int
  vUpgrades : UpgradeArray
  deriving DecidableEq, Repr

end Consensus

/-- One parameter set (`CChainParams`). -/
structure CChainParams where
  strNetworkID : String
  strCurrencyUnits : String
  bip44CoinType : Nat
  consensus : Consensus.Params
  pchMessageStart : List Nat
  nDefaultPort : Nat
  nPruneAfterHeight : Nat
  nEquihashN : Nat
  nEquihashK : Nat
  fMiningRequiresPeers : Bool
  fDefaultConsistencyChecks : Bool
  fRequireStandard : Bool
  fMineBlocksOnDemand : Bool
  fTestnetToBeDeprecatedFieldRPC : Bool
  vFoundersRewardAddress : List String
  deriving DecidableEq, Repr

/-! ## Founders-reward schedule

`Consensus::Params::GetLastFoundersRewardBlockHeight` is declared outside
`chainparams.cpp`; the functions below take it as the parameter `lastHeight`. -/

section FoundersReward

variable (lastHeight : Consensus.Params → Int)

/-- The local `addressChangeInterval` of `GetFoundersRewardAddressAtHeight`:
`(maxHeight + size) / size` in `size_t` arithmetic. -/
def addressChangeInterval (maxHeight : Int) (size : Nat) : Except Failure Nat :=
  if size = 0 then .error .undefinedBehaviour
  else .ok (((toSizeT maxHeight + size) % SIZE_MODULUS) / size)

/-- The local `i` of `GetFoundersRewardAddressAtHeight`: the assertion on the height,
then `nHeight / addressChangeInterval` in `size_t` arithmetic. -/
def foundersRewardIndex (p : CChainParams) (nHeight : Int) : Except Failure Nat :=
  let maxHeight := lastHeight p.consensus
  if nHeight > 0 ∧ nHeight ≤ maxHeight then
    match addressChangeInterval maxHeight p.vFoundersRewardAddress.length with
    | .error e => .error e
    | .ok interval =>
      if interval = 0 then .error .undefinedBehaviour
      else .ok (toSizeT nHeight / interval)
  else .error .assertion

/-- `CChainParams::GetFoundersRewardAddressAtHeight`. -/
def GetFoundersRewardAddressAtHeight (p : CChainParams) (nHeight : Int) :
    Except Failure String :=
  match foundersRewardIndex lastHeight p nHeight with
  | .error e => .error e
  | .ok i =>
    match p.vFoundersRewardAddress[i]? with
    | some a => .ok a
    | none => .error .undefinedBehaviour

/-- `CChainParams::GetFoundersRewardAddressAtIndex`: in `i < size()` the `int` is
converted to `size_t`. -/
def GetFoundersRewardAddressAtIndex (p : CChainParams) (i : Int) : Except Failure String :=
  if i ≥ 0 ∧ toSizeT i < p.vFoundersRewardAddress.length then
    match p.vFoundersRewardAddress[toSizeT i]? with
    | some a => .ok a
    | none => .error .undefinedBehaviour
  else .error .assertion

end FoundersReward

/-- The interval as the specification words it: the ceiling of `(L + n) / n`. -/
def ceilingInterval (L n : Nat) : Nat := (L + n + (n - 1)) / n

/-- A parameter set with the given founders-reward addresses (all other fields
arbitrary), for concrete instances. -/
def sampleParams (addrs : List String) : CChainParams :=
  { strNetworkID := "sample", strCurrencyUnits := "SMP", bip44CoinType := 1,
    consensus :=
      { fCoinbaseMustBeProtected := false, nSubsidySlowStartInterval := 0,
        nSubsidyHalvingInterval := 150, nMajorityEnforceBlockUpgrade := 750,
        nMajorityRejectBlockOutdated := 950, nMajorityWindow := 1000,
        powLimit := 0x0f0f0f0f0f0f0f0f0f0f0f0f0f0f0f0f0f0f0f0f0f0f0f0f0f0f0f0f0f0f0f0f,
        nPowAveragingWindow := 17, nPowMaxAdjustDown := 0, nPowMaxAdjustUp := 0,
        vUpgrades :=
          { BASE_SPROUT := ⟨170002, Consensus.NetworkUpgrade.ALWAYS_ACTIVE⟩,
            UPGRADE_TESTDUMMY := ⟨170002, Consensus.NetworkUpgrade.NO_ACTIVATION_HEIGHT⟩,
            UPGRADE_OVERWINTER := ⟨170003, Consensus.NetworkUpgrade.NO_ACTIVATION_HEIGHT⟩,
            UPGRADE_SAPLING := ⟨170006, Consensus.NetworkUpgrade.NO_ACTIVATION_HEIGHT⟩ } },
    pchMessageStart := [0, 0, 0, 0], nDefaultPort := 0, nPruneAfterHeight := 0,
    nEquihashN := 48, nEquihashK := 5, fMiningRequiresPeers := false,
    fDefaultConsistencyChecks := true, fRequireStandard := false,
    fMineBlocksOnDemand := true, fTestnetToBeDeprecatedFieldRPC := false,
    vFoundersRewardAddress := addrs }

/-! ## Founders-reward script

The destination variant, the script type and the decoder are declared outside
`chainparams.cpp`. -/

/-- Modelled from the spec: a 160-bit hash (`uint160`), the payload of a key-hash or
script-hash destination: exactly 20 bytes. -/
structure uint160 where
  bytes : List UInt8
  size_eq : bytes.length = 20

/-- Modelled from the spec: the destination kinds (`CTxDestination`): no destination,
a plain public-key hash, or a script hash (pay-to-script-hash). -/
inductive CTxDestination
  | CNoDestination
  | CKeyID (hash : uint160)
  | CScriptID (hash : uint160)

/-- The two opcodes `GetFoundersRewardScriptAtHeight` emits. -/
inductive opcodetype
  | OP_HASH160
  | OP_EQUAL
  deriving DecidableEq, Repr

/-- Modelled from the spec: one element of a script, an opcode or a data push. -/
inductive ScriptItem
  | op (code : opcodetype)
  | push (data : List UInt8)
  deriving DecidableEq, Repr

/-- Modelled from the spec: a script (`CScript`) is the sequence of its elements. -/
structure CScript where
  items : List ScriptItem
  deriving DecidableEq, Repr

/-- `CScript()`: the empty script. -/
def CScript.empty : CScript := ⟨[]⟩

/-- Modelled from the spec: `script << opcode` appends the opcode. -/
def CScript.pushOp (s : CScript) (code : opcodetype) : CScript := ⟨s.items ++ [.op code]⟩

/-- Modelled from the spec: `script << bytes` appends a push of the bytes. -/
def CScript.pushData (s : CScript) (data : List UInt8) : CScript :=
  ⟨s.items ++ [.push data]⟩

/-- `ToByteVector(scriptID)`: the bytes of the hash. -/
def ToByteVector (h : uint160) : List UInt8 := h.bytes

/-- `std::string::c_str()` passed where a `std::string` is expected: the text up to
the first NUL character. -/
def c_str (s : String) : String := ⟨s.data.takeWhile (fun c => c ≠ Char.ofNat 0)⟩

section FoundersScript

variable (lastHeight : Consensus.Params → Int)
variable (DecodeDestination : String → CTxDestination)
variable (IsValidDestination : CTxDestination → Bool)

/-- `CChainParams::GetFoundersRewardScriptAtHeight`; `DecodeDestination` and
`IsValidDestination` are parameters. -/
def GetFoundersRewardScriptAtHeight (p : CChainParams) (nHeight : Int) :
    Except Failure CScript :=
  if nHeight > 0 ∧ nHeight ≤ lastHeight p.consensus then
    match GetFoundersRewardAddressAtHeight lastHeight p nHeight with
    | .error e => .error e
    | .ok s =>
      let address := DecodeDestination (c_str s)
      if IsValidDestination address then
        match address with
        | .CScriptID scriptID =>
          .ok (((CScript.empty.pushOp .OP_HASH160).pushData (ToByteVector scriptID)).pushOp
            .OP_EQUAL)
        | _ => .error .assertion
      else .error .assertion
  else .error .assertion

end FoundersScript

/-- A decoder for concrete instances: text starting with `t2` is a script hash, text
starting with `tm` a public-key hash, anything else no destination. -/
def sampleDecodeDestination (s : String) : CTxDestination :=
  match s.data with
  | 't' :: '2' :: _ => .CScriptID ⟨List.replicate 20 7, by decide⟩
  | 't' :: 'm' :: _ => .CKeyID ⟨List.replicate 20 9, by decide⟩
  | _ => .CNoDestination

/-- A validity test for concrete instances: everything but `CNoDestination`. -/
def sampleIsValidDestination : CTxDestination → Bool
  | .CNoDestination => false
  | _ => true

/-! ## The constructed parameter sets

The values the three constructors assign (after their construction-time assertions). -/

/-- `CMainParams::CMainParams`: every founders-reward address is commented out. -/
def CMainParams : CChainParams :=
  { strNetworkID := "main", strCurrencyUnits := "AMI", bip44CoinType := 133,
    consensus :=
      { fCoinbaseMustBeProtected := true, nSubsidySlowStartInterval := 2,
        nSubsidyHalvingInterval := 840000, nMajorityEnforceBlockUpgrade := 750,
        nMajorityRejectBlockOutdated := 950, nMajorityWindow := 4000,
        powLimit := 0x0007ffffffffffffffffffffffffffffffffffffffffffffffffffffffffffff,
        nPowAveragingWindow := 17, nPowMaxAdjustDown := 32, nPowMaxAdjustUp := 16,
        vUpgrades :=
          { BASE_SPROUT := ⟨170002, Consensus.NetworkUpgrade.ALWAYS_ACTIVE⟩,
            UPGRADE_TESTDUMMY := ⟨170002, Consensus.NetworkUpgrade.NO_ACTIVATION_HEIGHT⟩,
            UPGRADE_OVERWINTER := ⟨170005, 347500⟩,
            UPGRADE_SAPLING := ⟨170007, 419200⟩ } },
    pchMessageStart := [0x24, 0xe9, 0x27, 0x64], nDefaultPort := 8343,
    nPruneAfterHeight := 100000, nEquihashN := 200, nEquihashK := 9,
    fMiningRequiresPeers := true, fDefaultConsistencyChecks := false,
    fRequireStandard := true, fMineBlocksOnDemand := false,
    fTestnetToBeDeprecatedFieldRPC := false,
    vFoundersRewardAddress := [] }

/-- `CTestNetParams::CTestNetParams`. -/
def CTestNetParams : CChainParams :=
  { strNetworkID := "test", strCurrencyUnits := "TAZ", bip44CoinType := 1,
    consensus :=
      { fCoinbaseMustBeProtected := true, nSubsidySlowStartInterval := 20000,
        nSubsidyHalvingInterval := 840000, nMajorityEnforceBlockUpgrade := 51,
        nMajorityRejectBlockOutdated := 75, nMajorityWindow := 400,
        powLimit := 0x07ffffffffffffffffffffffffffffffffffffffffffffffffffffffffffffff,
        nPowAveragingWindow := 17, nPowMaxAdjustDown := 32, nPowMaxAdjustUp := 16,
        vUpgrades :=
          { BASE_SPROUT := ⟨170002, Consensus.NetworkUpgrade.ALWAYS_ACTIVE⟩,
            UPGRADE_TESTDUMMY := ⟨170002, Consensus.NetworkUpgrade.NO_ACTIVATION_HEIGHT⟩,
            UPGRADE_OVERWINTER := ⟨170003, 207500⟩,
            UPGRADE_SAPLING := ⟨170007, 280000⟩ } },
    pchMessageStart := [0xfa, 0x1a, 0xf9, 0xbf], nDefaultPort := 18122,
    nPruneAfterHeight := 1000, nEquihashN := 200, nEquihashK := 9,
    fMiningRequiresPeers := true, fDefaultConsistencyChecks := false,
    fRequireStandard := true, fMineBlocksOnDemand := false,
    fTestnetToBeDeprecatedFieldRPC := true,
    vFoundersRewardAddress := [
    "t2UNzUUx8mWBCRYPRezvA363EYXyEpHokyi", "t2N9PH9Wk9xjqYg9iin1Ua3aekJqfAtE543", "t2NGQjYMQhFndDHguvUw4wZdNdsssA6K7x2", "t2ENg7hHVqqs9JwU5cgjvSbxnT2a9USNfhy",
    "t2BkYdVCHzvTJJUTx4yZB8qeegD8QsPx8bo", "t2J8q1xH1EuigJ52MfExyyjYtN3VgvshKDf", "t2Crq9mydTm37kZokC68HzT6yez3t2FBnFj", "t2EaMPUiQ1kthqcP5UEkF42CAFKJqXCkXC9",
    "t2F9dtQc63JDDyrhnfpzvVYTJcr57MkqA12", "t2LPirmnfYSZc481GgZBa6xUGcoovfytBnC", "t26xfxoSw2UV9Pe5o3C8V4YybQD4SESfxtp", "t2D3k4fNdErd66YxtvXEdft9xuLoKD7CcVo",
    "t2DWYBkxKNivdmsMiivNJzutaQGqmoRjRnL", "t2C3kFF9iQRxfc4B9zgbWo4dQLLqzqjpuGQ", "t2MnT5tzu9HSKcppRyUNwoTp8MUueuSGNaB", "t2AREsWdoW1F8EQYsScsjkgqobmgrkKeUkK",
    "t2Vf4wKcJ3ZFtLj4jezUUKkwYR92BLHn5UT", "t2K3fdViH6R5tRuXLphKyoYXyZhyWGghDNY", "t2VEn3KiKyHSGyzd3nDw6ESWtaCQHwuv9WC", "t2F8XouqdNMq6zzEvxQXHV1TjwZRHwRg8gC",
    "t2BS7Mrbaef3fA4xrmkvDisFVXVrRBnZ6Qj", "t2FuSwoLCdBVPwdZuYoHrEzxAb9qy4qjbnL", "t2SX3U8NtrT6gz5Db1AtQCSGjrpptr8JC6h", "t2V51gZNSoJ5kRL74bf9YTtbZuv8Fcqx2FH",
    "t2FyTsLjjdm4jeVwir4xzj7FAkUidbr1b4R", "t2EYbGLekmpqHyn8UBF6kqpahrYm7D6N1Le", "t2NQTrStZHtJECNFT3dUBLYA9AErxPCmkka", "t2GSWZZJzoesYxfPTWXkFn5UaxjiYxGBU2a",
    "t2RpffkzyLRevGM3w9aWdqMX6bd8uuAK3vn", "t2JzjoQqnuXtTGSN7k7yk5keURBGvYofh1d", "t2AEefc72ieTnsXKmgK2bZNckiwvZe3oPNL", "t2NNs3ZGZFsNj2wvmVd8BSwSfvETgiLrD8J",
    "t2ECCQPVcxUCSSQopdNquguEPE14HsVfcUn", "t2JabDUkG8TaqVKYfqDJ3rqkVdHKp6hwXvG", "t2FGzW5Zdc8Cy98ZKmRygsVGi6oKcmYir9n", "t2DUD8a21FtEFn42oVLp5NGbogY13uyjy9t",
    "t2UjVSd3zheHPgAkuX8WQW2CiC9xHQ8EvWp", "t2TBUAhELyHUn8i6SXYsXz5Lmy7kDzA1uT5", "t2Tz3uCyhP6eizUWDc3bGH7XUC9GQsEyQNc", "t2NysJSZtLwMLWEJ6MH3BsxRh6h27mNcsSy",
    "t2KXJVVyyrjVxxSeazbY9ksGyft4qsXUNm9", "t2J9YYtH31cveiLZzjaE4AcuwVho6qjTNzp", "t2QgvW4sP9zaGpPMH1GRzy7cpydmuRfB4AZ", "t2NDTJP9MosKpyFPHJmfjc5pGCvAU58XGa4",
    "t29pHDBWq7qN4EjwSEHg8wEqYe9pkmVrtRP", "t2Ez9KM8VJLuArcxuEkNRAkhNvidKkzXcjJ", "t2D5y7J5fpXajLbGrMBQkFg2mFN8fo3n8cX", "t2UV2wr1PTaUiybpkV3FdSdGxUJeZdZztyt" ] }

/-- `CRegTestParams::CRegTestParams`. -/
def CRegTestParams : CChainParams :=
  { strNetworkID := "regtest", strCurrencyUnits := "REG", bip44CoinType := 1,
    consensus :=
      { fCoinbaseMustBeProtected := false, nSubsidySlowStartInterval := 0,
        nSubsidyHalvingInterval := 150, nMajorityEnforceBlockUpgrade := 750,
        nMajorityRejectBlockOutdated := 950, nMajorityWindow := 1000,
        powLimit := 0x0f0f0f0f0f0f0f0f0f0f0f0f0f0f0f0f0f0f0f0f0f0f0f0f0f0f0f0f0f0f0f0f,
        nPowAveragingWindow := 17, nPowMaxAdjustDown := 0, nPowMaxAdjustUp := 0,
        vUpgrades :=
          { BASE_SPROUT := ⟨170002, Consensus.NetworkUpgrade.ALWAYS_ACTIVE⟩,
            UPGRADE_TESTDUMMY := ⟨170002, Consensus.NetworkUpgrade.NO_ACTIVATION_HEIGHT⟩,
            UPGRADE_OVERWINTER := ⟨170003, Consensus.NetworkUpgrade.NO_ACTIVATION_HEIGHT⟩,
            UPGRADE_SAPLING := ⟨170006, Consensus.NetworkUpgrade.NO_ACTIVATION_HEIGHT⟩ } },
    pchMessageStart := [0xaa, 0xe8, 0x3f, 0x5f], nDefaultPort := 18211,
    nPruneAfterHeight := 1000, nEquihashN := 48, nEquihashK := 5,
    fMiningRequiresPeers := false, fDefaultConsistencyChecks := true,
    fRequireStandard := false, fMineBlocksOnDemand := true,
    fTestnetToBeDeprecatedFieldRPC := false,
    vFoundersRewardAddress := ["t2FwcEhFdNXuFMv1tcYwaBJtYVtMj8b1uTg"] }

/-! ## The parameter registry

The file-level objects `mainParams`, `testNetParams`, `regTestParams` and the pointer
`pCurrentParams`, together with the argument map `mapArgs` and the state `base` owned by
the base-parameter module, whose `SelectBaseParams` is a parameter here. -/

/-- `CBaseChainParams::Network`. -/
inductive Network
  | MAIN
  | TESTNET
  | REGTEST
  | MAX_NETWORK_TYPES
  deriving DecidableEq, Repr

/-- The address of one of the three static parameter objects. -/
inductive ParamsRef
  | mainParams
  | testNetParams
  | regTestParams
  deriving DecidableEq, Repr

/-- The process-wide state. -/
structure Globals (β : Type) where
  base : β
  mapArgs : List (String × String)
  mainParams : CChainParams
  testNetParams : CChainParams
  regTestParams : CChainParams
  pCurrentParams : Option ParamsRef

/-- The object a reference points to. -/
def Globals.deref {β : Type} (g : Globals β) : ParamsRef → CChainParams
  | .mainParams => g.mainParams
  | .testNetParams => g.testNetParams
  | .regTestParams => g.regTestParams

/-- The state at process start: the three constructed objects, `pCurrentParams = 0`. -/
def initialGlobals {β : Type} (base : β) (mapArgs : List (String × String)) : Globals β :=
  { base := base, mapArgs := mapArgs, mainParams := CMainParams,
    testNetParams := CTestNetParams, regTestParams := CRegTestParams,
    pCurrentParams := none }

/-- `mapArgs.count(key)` of a `std::map`: 1 when the key is present, else 0. -/
def mapArgsCount (m : List (String × String)) (key : String) : Nat :=
  if (m.lookup key).isSome then 1 else 0

/-- Modelled from the spec: `SetRegTestCoinbaseMustBeProtected` (declared outside
`chainparams.cpp`) flips `coinbaseMustBeProtected` to true. -/
def SetRegTestCoinbaseMustBeProtected (p : CChainParams) : CChainParams :=
  { p with consensus := { p.consensus with fCoinbaseMustBeProtected := true } }

/-- `Params()`: the selected parameter set; asserts that one is selected. -/
def Params {β : Type} (g : Globals β) : Except Failure (ParamsRef × Globals β) :=
  match g.pCurrentParams with
  | some r => .ok (r, g)
  | none => .error .assertion

/-- `Params(CBaseChainParams::Network network)`. -/
def ParamsNetwork {β : Type} (network : Network) (g : Globals β) :
    Except Failure (ParamsRef × Globals β) :=
  match network with
  | .MAIN => .ok (.mainParams, g)
  | .TESTNET => .ok (.testNetParams, g)
  | .REGTEST => .ok (.regTestParams, g)
  | .MAX_NETWORK_TYPES => .error .assertion

section Registry

variable {β : Type}
variable (SelectBaseParams : Network → β → Except Failure β)
variable (NetworkIdFromCommandLine : Globals β → Network)

/-- `SelectParams(network)`. -/
def SelectParams (network : Network) (g : Globals β) : Except Failure (Unit × Globals β) :=
  match SelectBaseParams network g.base with
  | .error e => .error e
  | .ok base =>
    match ParamsNetwork network { g with base := base } with
    | .error e => .error e
    | .ok (r, g1) =>
      let g2 := { g1 with pCurrentParams := some r }
      if network = .REGTEST ∧ mapArgsCount g2.mapArgs "-regtestprotectcoinbase" ≠ 0 then
        .ok ((), { g2 with regTestParams := SetRegTestCoinbaseMustBeProtected g2.regTestParams })
      else .ok ((), g2)

/-- `SelectParamsFromCommandLine()`. -/
def SelectParamsFromCommandLine (g : Globals β) : Except Failure (Bool × Globals β) :=
  let network := NetworkIdFromCommandLine g
  if network = .MAX_NETWORK_TYPES then .ok (false, g)
  else
    match SelectParams SelectBaseParams network g with
    | .error e => .error e
    | .ok (_, g1) => .ok (true, g1)

/-- One selection call made by the hosting process. -/
inductive SelectionCall
  | select (network : Network)
  | fromCommandLine
  deriving DecidableEq, Repr

/-- Runs selection calls in order; `last` records the network of the latest call that
selected one (`fromCommandLine` returning false selects none). -/
def runSelections : List SelectionCall → Globals β → Option Network →
    Except Failure (Globals β × Option Network)
  | [], g, last => .ok (g, last)
  | .select network :: rest, g, _ =>
    match SelectParams SelectBaseParams network g with
    | .error e => .error e
    | .ok (_, g1) => runSelections rest g1 (some network)
  | .fromCommandLine :: rest, g, last =>
    match SelectParamsFromCommandLine SelectBaseParams NetworkIdFromCommandLine g with
    | .error e => .error e
    | .ok (true, g1) => runSelections rest g1 (some (NetworkIdFromCommandLine g))
    | .ok (false, g1) => runSelections rest g1 last

end Registry

/-- A base-parameter selection for concrete instances: it accepts the three networks
and asserts on any other value. -/
def sampleSelectBaseParams (network : Network) (base : Unit) : Except Failure Unit :=
  match network with
  | .MAX_NETWORK_TYPES => .error .assertion
  | _ => .ok base

/-- A command line for concrete instances that names no known network. -/
def sampleNetworkIdFromCommandLine (_ : Globals Unit) : Network := .MAX_NETWORK_TYPES

/-! ## The upgrade-height mutation entry point -/

/-- `CRegTestParams::UpdateNetworkUpgradeParameters`: the assertion on the index, then
the write to `consensus.vUpgrades[idx].nActivationHeight`. -/
def CRegTestParams.UpdateNetworkUpgradeParameters (p : CChainParams)
    (idx : Consensus.UpgradeIndex) (nActivationHeight : Int) : Except Failure CChainParams :=
  if idx.toNat > Consensus.UpgradeIndex.BASE_SPROUT.toNat ∧
      idx.toNat < Consensus.UpgradeIndex.MAX_NETWORK_UPGRADES.toNat then
    match p.consensus.vUpgrades.setActivationHeight idx nActivationHeight with
    | some a => .ok { p with consensus := { p.consensus with vUpgrades := a } }
    | none => .error .undefinedBehaviour
  else .error .assertion

/-- The file-level `UpdateNetworkUpgradeParameters(idx, nActivationHeight)`: it forwards
to the `regTestParams` object. -/
def UpdateNetworkUpgradeParameters {β : Type} (idx : Consensus.UpgradeIndex)
    (nActivationHeight : Int) (g : Globals β) : Except Failure (Unit × Globals β) :=
  match CRegTestParams.UpdateNetworkUpgradeParameters g.regTestParams idx nActivationHeight with
  | .error e => .error e
  | .ok p => .ok ((), { g with regTestParams := p })

/-- One call on the registry made by the hosting process or a test harness. -/
inductive RegistryCall
  | select (network : Network)
  | fromCommandLine
  | updateUpgrade (idx : Consensus.UpgradeIndex) (nActivationHeight : Int)
  deriving DecidableEq, Repr

section RegistryCalls

variable {β : Type}
variable (SelectBaseParams : Network → β → Except Failure β)
variable (NetworkIdFromCommandLine : Globals β → Network)

/-- Runs registry calls in order; a call that aborts ends the run. -/
def runCalls : List RegistryCall → Globals β → Except Failure (Globals β)
  | [], g => .ok g
  | .select network :: rest, g =>
    match SelectParams SelectBaseParams network g with
    | .error e => .error e
    | .ok (_, g1) => runCalls rest g1
  | .fromCommandLine :: rest, g =>
    match SelectParamsFromCommandLine SelectBaseParams NetworkIdFromCommandLine g with
    | .error e => .error e
    | .ok (_, g1) => runCalls rest g1
  | .updateUpgrade idx nActivationHeight :: rest, g =>
    match UpdateNetworkUpgradeParameters idx nActivationHeight g with
    | .error e => .error e
    | .ok (_, g1) => runCalls rest g1

end RegistryCalls

/-! ## Upgrade-table queries

The resolver (`activationHeight`, `isActivated`, `currentEpoch`, `protocolVersionAt`) is
defined outside `chainparams.cpp`. -/

/-- Modelled from the spec: `activationHeight(idx)` returns the stored height or a
sentinel (`none` when `idx` is not an index of the table). -/
def activationHeight (a : Consensus.UpgradeArray) (idx : Consensus.UpgradeIndex) : Option Int :=
  (a.get? idx).map (fun u => u.nActivationHeight)

/-- Modelled from the spec: `isActivated(idx, height)` is true iff the stored height is
not `NO_ACTIVATION` and `height ≥` that stored height. -/
def isActivated (a : Consensus.UpgradeArray) (idx : Consensus.UpgradeIndex) (height : Int) :
    Bool :=
  match activationHeight a idx with
  | some stored =>
    decide (stored ≠ Consensus.NetworkUpgrade.NO_ACTIVATION_HEIGHT ∧ height ≥ stored)
  | none => false

/-- Modelled from the spec: `currentEpoch(height)` scans the indices from highest to
lowest and returns the first one that `isActivated` at `height`; BaseEra is the
fallback. -/
def currentEpoch (a : Consensus.UpgradeArray) (height : Int) : Consensus.UpgradeIndex :=
  ([Consensus.UpgradeIndex.UPGRADE_SAPLING, Consensus.UpgradeIndex.UPGRADE_OVERWINTER,
      Consensus.UpgradeIndex.UPGRADE_TESTDUMMY, Consensus.UpgradeIndex.BASE_SPROUT].find?
    (fun idx => isActivated a idx height)).getD Consensus.UpgradeIndex.BASE_SPROUT

/-- Modelled from the spec: `protocolVersionAt(height)` is the protocol version of the
index the same scan stops at. -/
def protocolVersionAt (a : Consensus.UpgradeArray) (height : Int) : Int :=
  match a.get? (currentEpoch a height) with
  | some u => u.nProtocolVersion
  | none => a.BASE_SPROUT.nProtocolVersion

/-- A real activation height: neither `ALWAYS_ACTIVE` nor `NO_ACTIVATION_HEIGHT`. -/
def isRealHeight (h : Int) : Prop :=
  h ≠ Consensus.NetworkUpgrade.ALWAYS_ACTIVE ∧ h ≠ Consensus.NetworkUpgrade.NO_ACTIVATION_HEIGHT

instance (h : Int) : Decidable (isRealHeight h) := by
  unfold isRealHeight
  infer_instance

/-- The ordering invariant of the data model: for indices `i < j` that both have real
activation heights, `activationHeight(i) ≤ activationHeight(j)`. -/
def activationOrdered (a : Consensus.UpgradeArray) : Prop :=
  ∀ i j : Consensus.UpgradeIndex, i.toNat < j.toNat →
    ∀ hi ∈ activationHeight a i, ∀ hj ∈ activationHeight a j,
      isRealHeight hi → isRealHeight hj → hi ≤ hj

/-! ## Metrics: `AtomicCounter` and `AtomicTimer` (single-threaded use) -/

/-- Number of values of `uint64_t`. -/
def UINT64_MODULUS : Nat := 2 ^ 64

/-- The conversion of a `uint64_t` to `int` (32 bits, two's complement). -/
def uint64ToInt (x : Nat) : Int := ((x : Int) + 2 ^ 31) % 2 ^ 32 - 2 ^ 31

/-- `AtomicCounter`: the field `std::atomic<uint64_t> value`. -/
structure AtomicCounter where
  value : Nat
  deriving DecidableEq, Repr

/-- The constructor `AtomicCounter() : value {0}`. -/
def AtomicCounter.construct : AtomicCounter := ⟨0⟩

/-- `AtomicCounter::increment`: `++value` on a `uint64_t`. -/
def AtomicCounter.increment (c : AtomicCounter) : AtomicCounter :=
  ⟨(c.value + 1) % UINT64_MODULUS⟩

/-- `AtomicCounter::decrement`: `--value` on a `uint64_t`. -/
def AtomicCounter.decrement (c : AtomicCounter) : AtomicCounter :=
  ⟨(c.value + (UINT64_MODULUS - 1)) % UINT64_MODULUS⟩

/-- `int AtomicCounter::get() const`: `value.load()` converted to the return type
`int`. -/
def AtomicCounter.get (c : AtomicCounter) : Int := uint64ToInt c.value

/-- The counter after `n` further calls of `increment()`. -/
def AtomicCounter.afterIncrements : Nat → AtomicCounter → AtomicCounter
  | 0, c => c
  | n + 1, c => (AtomicCounter.afterIncrements n c).increment

/-- `AtomicTimer`: the fields `uint64_t threads`, `int64_t start_time`,
`int64_t total_time` (times are exact integers here). -/
structure AtomicTimer where
  threads : Nat
  start_time : Int
  total_time : Int
  deriving DecidableEq, Repr

/-- The constructor `AtomicTimer() : threads(0), start_time(0), total_time(0)`. -/
def AtomicTimer.construct : AtomicTimer := ⟨0, 0, 0⟩

/-- Modelled from the spec: `start()` (defined outside `metrics.h`) increments the
thread count; if the count transitions 0→1 it records the current wall-clock time
`now` as the interval start. -/
def AtomicTimer.start (t : AtomicTimer) (now : Int) : AtomicTimer :=
  let threads := (t.threads + 1) % UINT64_MODULUS
  { t with threads := threads,
           start_time := if t.threads = 0 ∧ threads = 1 then now else t.start_time }

/-- Modelled from the spec: `stop()` (defined outside `metrics.h`) decrements the
thread count; if it transitions 1→0 it adds `now − start_time` to the accumulated
total. -/
def AtomicTimer.stop (t : AtomicTimer) (now : Int) : AtomicTimer :=
  let threads := (t.threads + (UINT64_MODULUS - 1)) % UINT64_MODULUS
  { t with threads := threads,
           total_time := if t.threads = 1 ∧ threads = 0
             then t.total_time + (now - t.start_time) else t.total_time }

/-- Modelled from the spec: `running()` is true iff the thread count is above 0. -/
def AtomicTimer.running (t : AtomicTimer) : Bool := decide (t.threads > 0)

/-- Modelled from the spec: `threadCount()` returns the current count. -/
def AtomicTimer.threadCount (t : AtomicTimer) : Nat := t.threads

/-- The timer after `n` further calls of `start()`, the `i`-th of them reading the
clock value `clock i`. -/
def AtomicTimer.afterStarts (clock : Nat → Int) : Nat → AtomicTimer → AtomicTimer
  | 0, t => t
  | n + 1, t => (AtomicTimer.afterStarts clock n t).start (clock n)

/-- The timer after `n` further calls of `stop()`, the `i`-th of them reading the
clock value `clock i`. -/
def AtomicTimer.afterStops (clock : Nat → Int) : Nat → AtomicTimer → AtomicTimer
  | 0, t => t
  | n + 1, t => (AtomicTimer.afterStops clock n t).stop (clock n)

/-! ## Construction-time assertions -/

/-- The file-level constant `maxUint`: `ff…ff` (64 hex digits), the largest 256-bit
unsigned value. -/
def maxUint : Nat := 0xffffffffffffffffffffffffffffffffffffffffffffffffffffffffffffffff

/-- The conversion of an `int64_t` to the 256-bit unsigned type, which goes through
`uint64_t`: the value modulo `2^64`. -/
def int64ToArith256 (x : Int) : Nat := (x % (UINT64_MODULUS : Int)).toNat

/-- The condition of `assert(maxUint/UintToArith256(consensus.powLimit) >=
consensus.nPowAveragingWindow)` in each of the three constructors; the division of the
256-bit unsigned type is the truncating one. -/
def powAveragingWindowAssertion (consensus : Consensus.Params) : Bool :=
  decide (maxUint / consensus.powLimit ≥ int64ToArith256 consensus.nPowAveragingWindow)

/-- The condition of `assert(vFoundersRewardAddress.size() <=
consensus.GetLastFoundersRewardBlockHeight())` at the end of `CMainParams::CMainParams`
(the `int` is converted to `size_t`); `GetLastFoundersRewardBlockHeight` is the
parameter `lastHeight`. -/
def foundersRewardSizeAssertion (lastHeight : Consensus.Params → Int) (p : CChainParams) :
    Bool :=
  decide (p.vFoundersRewardAddress.length ≤ toSizeT (lastHeight p.consensus))

/-! ## Arithmetic of the rotation -/

theorem toSizeT_of_range {x : Int} (h0 : 0 ≤ x) (h1 : x ≤ INT_MAX) :
    toSizeT x = x.toNat := by
  unfold toSizeT SIZE_MODULUS
  unfold INT_MAX at h1
  rw [Int.emod_eq_of_lt h0 (by norm_num; omega)]

theorem interval_no_wrap {L : Int} {n : Nat} (h0 : 0 ≤ L) (h1 : L ≤ INT_MAX)
    (hn : n ≤ VECTOR_MAX_SIZE) :
    (toSizeT L + n) % SIZE_MODULUS = L.toNat + n := by
  rw [toSizeT_of_range h0 h1]
  unfold INT_MAX at h1
  unfold VECTOR_MAX_SIZE at hn
  unfold SIZE_MODULUS
  apply Nat.mod_eq_of_lt
  omega

theorem interval_pos (L n : Nat) (hn : 1 ≤ n) : 1 ≤ (L + n) / n := by
  rw [Nat.add_div_right L (by omega)]
  exact Nat.le_add_left 1 (L / n)

theorem index_lt (L n h : Nat) (hn : 1 ≤ n) (hh : h ≤ L) : h / ((L + n) / n) < n := by
  have hpos : 0 < (L + n) / n := interval_pos L n hn
  rw [Nat.div_lt_iff_lt_mul hpos]
  have h1 : (L + n) / n = L / n + 1 := Nat.add_div_right L (by omega)
  rw [h1]
  have h3 : L % n < n := Nat.mod_lt L (by omega)
  calc h ≤ L := hh
    _ = n * (L / n) + L % n := (Nat.div_add_mod L n).symm
    _ < n * (L / n) + n := Nat.add_lt_add_left h3 _
    _ = n * (L / n + 1) := by ring

/-- In range and with a non-empty list that fits a vector, the index is
`h / ((L + n) / n)`. -/
theorem foundersRewardIndex_eq (lastHeight : Consensus.Params → Int) (p : CChainParams)
    (h : Int) (hn : 1 ≤ p.vFoundersRewardAddress.length)
    (hmax : p.vFoundersRewardAddress.length ≤ VECTOR_MAX_SIZE)
    (hL : lastHeight p.consensus ≤ INT_MAX) (h1 : 1 ≤ h) (h2 : h ≤ lastHeight p.consensus) :
    foundersRewardIndex lastHeight p h =
      .ok (h.toNat / (((lastHeight p.consensus).toNat + p.vFoundersRewardAddress.length)
        / p.vFoundersRewardAddress.length)) := by
  have hL0 : 0 ≤ lastHeight p.consensus := by omega
  have hpos := interval_pos (lastHeight p.consensus).toNat p.vFoundersRewardAddress.length hn
  unfold foundersRewardIndex addressChangeInterval
  simp only []
  rw [if_pos ⟨by omega, h2⟩, if_neg (by omega)]
  simp only []
  rw [interval_no_wrap hL0 hL hmax, if_neg (by omega),
    toSizeT_of_range (by omega) (by omega)]

/-- In range and with a non-empty list that fits a vector, the lookup succeeds at the
index `h / ((L + n) / n)`. -/
theorem addressAtHeight_eq (lastHeight : Consensus.Params → Int) (p : CChainParams)
    (h : Int) (hn : 1 ≤ p.vFoundersRewardAddress.length)
    (hmax : p.vFoundersRewardAddress.length ≤ VECTOR_MAX_SIZE)
    (hL : lastHeight p.consensus ≤ INT_MAX) (h1 : 1 ≤ h) (h2 : h ≤ lastHeight p.consensus) :
    ∃ a, p.vFoundersRewardAddress[h.toNat /
        (((lastHeight p.consensus).toNat + p.vFoundersRewardAddress.length)
          / p.vFoundersRewardAddress.length)]? = some a ∧
      GetFoundersRewardAddressAtHeight lastHeight p h = .ok a := by
  have hlt := index_lt (lastHeight p.consensus).toNat p.vFoundersRewardAddress.length
    h.toNat hn (by omega)
  refine ⟨p.vFoundersRewardAddress.get ⟨_, hlt⟩, ?_, ?_⟩
  · exact List.getElem?_eq_getElem hlt
  · unfold GetFoundersRewardAddressAtHeight
    rw [foundersRewardIndex_eq lastHeight p h hn hmax hL h1 h2]
    simp only []
    rw [List.getElem?_eq_getElem hlt]
    rfl

/-- The height assertion is the only source of `Failure.assertion`. -/
theorem addressAtHeight_assertion_iff (lastHeight : Consensus.Params → Int)
    (p : CChainParams) (h : Int) :
    GetFoundersRewardAddressAtHeight lastHeight p h = .error .assertion ↔
      (h < 1 ∨ h > lastHeight p.consensus) := by
  unfold GetFoundersRewardAddressAtHeight foundersRewardIndex addressChangeInterval
  simp only []
  by_cases hr : h > 0 ∧ h ≤ lastHeight p.consensus
  · rw [if_pos hr]
    have hno : ¬ (h < 1 ∨ h > lastHeight p.consensus) := by omega
    simp only [hno, iff_false]
    split_ifs with hz
    · simp
    · simp only []
      split_ifs with hi
      · simp
      · simp only []
        split <;> simp
  · rw [if_neg hr]
    have hyes : h < 1 ∨ h > lastHeight p.consensus := by omega
    simp [hyes]

/-- `ceilingInterval` is the ceiling of the exact quotient `(L + n) / n`. -/
theorem ceilingInterval_is_ceiling (L n : Nat) (hn : 1 ≤ n) :
    ceilingInterval L n = ⌈((L : ℚ) + n) / n⌉₊ := by
  unfold ceilingInterval
  symm
  have hn0 : 0 < n := hn
  have hq : (0 : ℚ) < n := by exact_mod_cast hn0
  have e1 := Nat.div_add_mod (L + n + (n - 1)) n
  have e2 := Nat.mod_lt (L + n + (n - 1)) hn0
  generalize (L + n + (n - 1)) / n = q at e1 ⊢
  generalize (L + n + (n - 1)) % n = r at e1 e2
  have hq1 : q ≠ 0 := by
    rintro rfl
    simp at e1
    omega
  obtain ⟨k, rfl⟩ : ∃ k, q = k + 1 := ⟨q - 1, by omega⟩
  rw [Nat.ceil_eq_iff hq1]
  have e3 : n * (k + 1) = n * k + n := by ring
  generalize hm : n * k = m at e3
  rw [e3] at e1
  constructor
  · rw [lt_div_iff₀ hq]
    have : k * n < L + n := by
      have : k * n = m := by rw [← hm]; ring
      omega
    have h2 : ((k : ℕ) : ℚ) * n < (L : ℚ) + n := by exact_mod_cast this
    simpa using h2
  · rw [div_le_iff₀ hq]
    have : L + n ≤ (k + 1) * n := by
      have : (k + 1) * n = m + n := by rw [← e3]; ring
      omega
    exact_mod_cast this

/-! ## Founders-reward schedule: the claims -/

/-- C1: for a schedule with `n ≥ 1` addresses and a height `h` with `1 ≤ h ≤ L`,
`GetFoundersRewardAddressAtHeight` computes the index `i = h / ((L + n) / n)`
(truncating division), `0 ≤ i ≤ n - 1`, and the lookup at `i` is inside the list. -/
theorem C1_index_in_bounds (lastHeight : Consensus.Params → Int) (p : CChainParams)
    (h : Int) (hn : 1 ≤ p.vFoundersRewardAddress.length)
    (hmax : p.vFoundersRewardAddress.length ≤ VECTOR_MAX_SIZE)
    (hL : lastHeight p.consensus ≤ INT_MAX) (h1 : 1 ≤ h) (h2 : h ≤ lastHeight p.consensus) :
    ∃ i : Nat, foundersRewardIndex lastHeight p h = .ok i ∧
      i = h.toNat / (((lastHeight p.consensus).toNat + p.vFoundersRewardAddress.length)
        / p.vFoundersRewardAddress.length) ∧
      0 ≤ i ∧ i ≤ p.vFoundersRewardAddress.length - 1 ∧
      (p.vFoundersRewardAddress[i]?).isSome = true := by
  have hlt := index_lt (lastHeight p.consensus).toNat p.vFoundersRewardAddress.length
    h.toNat hn (by omega)
  refine ⟨_, foundersRewardIndex_eq lastHeight p h hn hmax hL h1 h2, rfl, Nat.zero_le _,
    by omega, ?_⟩
  rw [List.getElem?_eq_getElem hlt]
  rfl

theorem C1_index_in_bounds_witness :
    (1 : Int) ≤ 99 ∧ (99 : Int) ≤ 100 ∧
    ∃ i : Nat, foundersRewardIndex (fun _ => 100) (sampleParams ["A0", "A1", "A2", "A3"]) 99
        = .ok i ∧
      i = (99 : Int).toNat / (((100 : Int).toNat + 4) / 4) ∧
      0 ≤ i ∧ i ≤ 4 - 1 ∧
      ((sampleParams ["A0", "A1", "A2", "A3"]).vFoundersRewardAddress[i]?).isSome = true :=
  ⟨by decide, by decide,
    C1_index_in_bounds (fun _ => 100) (sampleParams ["A0", "A1", "A2", "A3"]) 99
      (by decide) (by decide) (by decide) (by decide) (by decide)⟩

/-- C2, as stated, fails: at height 0 (below 1) `GetFoundersRewardAddressAtHeight`
does not hand a RangeError to its caller; its `assert` fails and the process aborts. -/
theorem C2_range_error_counterexample :
    ((0 : Int) < 1 ∨ (0 : Int) > 100) ∧
    GetFoundersRewardAddressAtHeight (fun _ => 100)
        (sampleParams ["A0", "A1", "A2", "A3"]) 0 = .error .assertion ∧
    Failure.assertion.tier = .fatal ∧
    failsWithRangeError (GetFoundersRewardAddressAtHeight (fun _ => 100)
        (sampleParams ["A0", "A1", "A2", "A3"]) 0) = false := by
  have h0 : GetFoundersRewardAddressAtHeight (fun _ => 100)
      (sampleParams ["A0", "A1", "A2", "A3"]) 0 = .error .assertion :=
    (addressAtHeight_assertion_iff (fun _ => 100)
      (sampleParams ["A0", "A1", "A2", "A3"]) 0).mpr (Or.inl (by decide))
  refine ⟨Or.inl (by decide), h0, rfl, ?_⟩
  rw [h0]
  rfl

/-- C2 (amended): `GetFoundersRewardAddressAtHeight` fails fatally, on its height
assertion, which aborts the process, if and only if `height < 1` or
`height > lastRewardHeight`; for every height in range and a non-empty address list it
returns an address; for no height does it end in a RangeError handed to the caller. -/
theorem C2_addressAtHeight_range (lastHeight : Consensus.Params → Int) (p : CChainParams)
    (h : Int) (hmax : p.vFoundersRewardAddress.length ≤ VECTOR_MAX_SIZE)
    (hL : lastHeight p.consensus ≤ INT_MAX) :
    (GetFoundersRewardAddressAtHeight lastHeight p h = .error .assertion ↔
      (h < 1 ∨ h > lastHeight p.consensus)) ∧
    (1 ≤ h → h ≤ lastHeight p.consensus → p.vFoundersRewardAddress ≠ [] →
      ∃ a, a ∈ p.vFoundersRewardAddress ∧
        GetFoundersRewardAddressAtHeight lastHeight p h = .ok a) ∧
    Failure.assertion.tier = .fatal ∧
    failsWithRangeError (GetFoundersRewardAddressAtHeight lastHeight p h) = false := by
  refine ⟨addressAtHeight_assertion_iff lastHeight p h, ?_, rfl, ?_⟩
  · intro h1 h2 hne
    have hn : 1 ≤ p.vFoundersRewardAddress.length := by
      rcases hp : p.vFoundersRewardAddress with _ | ⟨a, l⟩
      · exact absurd hp hne
      · simp
    obtain ⟨a, ha, hok⟩ := addressAtHeight_eq lastHeight p h hn hmax hL h1 h2
    exact ⟨a, List.getElem?_mem ha, hok⟩
  · cases GetFoundersRewardAddressAtHeight lastHeight p h with
    | ok a => rfl
    | error e => cases e <;> rfl

theorem C2_addressAtHeight_range_witness :
    (GetFoundersRewardAddressAtHeight (fun _ => 100)
        (sampleParams ["A0", "A1", "A2", "A3"]) 26 = .error .assertion ↔
      ((26 : Int) < 1 ∨ (26 : Int) > 100)) ∧
    ((1 : Int) ≤ 26 → (26 : Int) ≤ 100 →
      (sampleParams ["A0", "A1", "A2", "A3"]).vFoundersRewardAddress ≠ [] →
      ∃ a, a ∈ (sampleParams ["A0", "A1", "A2", "A3"]).vFoundersRewardAddress ∧
        GetFoundersRewardAddressAtHeight (fun _ => 100)
          (sampleParams ["A0", "A1", "A2", "A3"]) 26 = .ok a) ∧
    Failure.assertion.tier = .fatal ∧
    failsWithRangeError (GetFoundersRewardAddressAtHeight (fun _ => 100)
      (sampleParams ["A0", "A1", "A2", "A3"]) 26) = false :=
  C2_addressAtHeight_range (fun _ => 100) (sampleParams ["A0", "A1", "A2", "A3"]) 26
    (by decide) (by decide)

/-- C3, as stated, fails: with 4 addresses, `L = 101` and height 26 the code returns
the address at index 1, while `h / ceil((L + n) / n) = 26 / 27 = 0`. -/
theorem C3_ceiling_counterexample :
    GetFoundersRewardAddressAtHeight (fun _ => 101)
        (sampleParams ["A0", "A1", "A2", "A3"]) 26 = .ok "A1" ∧
      ceilingInterval 101 4 = 27 ∧
      (sampleParams ["A0", "A1", "A2", "A3"]).vFoundersRewardAddress[
        26 / ceilingInterval 101 4]? = some "A0" := by
  refine ⟨?_, by decide, by decide⟩
  obtain ⟨a, ha, hok⟩ := addressAtHeight_eq (fun _ => 101)
    (sampleParams ["A0", "A1", "A2", "A3"]) 26 (by decide) (by decide) (by decide)
    (by decide) (by decide)
  rw [hok]
  have : (sampleParams ["A0", "A1", "A2", "A3"]).vFoundersRewardAddress[
      (26 : Int).toNat / (((101 : Int).toNat + 4) / 4)]? = some "A1" := by decide
  have hlen : (sampleParams ["A0", "A1", "A2", "A3"]).vFoundersRewardAddress.length = 4 := rfl
  rw [hlen] at ha
  rw [this] at ha
  rw [Option.some.inj ha]

/-- C3 (amended): for `n ≥ 1` addresses and `h` in `[1, L]` the function returns
`addresses[h / interval]` where `interval` is the truncated quotient
`(L + n) / n = L / n + 1`; with 4 addresses and `L = 100` the interval is 26 and
heights 25, 26 and 99 map to indices 0, 1 and 3. -/
theorem C3_addressAtHeight_floor_interval (lastHeight : Consensus.Params → Int)
    (p : CChainParams) (h : Int) (hn : 1 ≤ p.vFoundersRewardAddress.length)
    (hmax : p.vFoundersRewardAddress.length ≤ VECTOR_MAX_SIZE)
    (hL : lastHeight p.consensus ≤ INT_MAX) (h1 : 1 ≤ h) (h2 : h ≤ lastHeight p.consensus) :
    (∃ interval : Nat,
      addressChangeInterval (lastHeight p.consensus) p.vFoundersRewardAddress.length
        = .ok interval ∧
      interval = ((lastHeight p.consensus).toNat + p.vFoundersRewardAddress.length)
        / p.vFoundersRewardAddress.length ∧
      interval = (lastHeight p.consensus).toNat / p.vFoundersRewardAddress.length + 1 ∧
      ∃ a, p.vFoundersRewardAddress[h.toNat / interval]? = some a ∧
        GetFoundersRewardAddressAtHeight lastHeight p h = .ok a) ∧
    (addressChangeInterval 100 4 = .ok 26 ∧
      foundersRewardIndex (fun _ => 100) (sampleParams ["A0", "A1", "A2", "A3"]) 25 = .ok 0 ∧
      foundersRewardIndex (fun _ => 100) (sampleParams ["A0", "A1", "A2", "A3"]) 26 = .ok 1 ∧
      foundersRewardIndex (fun _ => 100) (sampleParams ["A0", "A1", "A2", "A3"]) 99 = .ok 3) := by
  have hL0 : 0 ≤ lastHeight p.consensus := by omega
  refine ⟨⟨_, ?_, rfl, Nat.add_div_right _ (by omega), addressAtHeight_eq lastHeight p h hn
    hmax hL h1 h2⟩, ?_, ?_, ?_, ?_⟩
  · unfold addressChangeInterval
    rw [if_neg (by omega), interval_no_wrap hL0 hL hmax]
  · unfold addressChangeInterval
    rw [if_neg (by decide), interval_no_wrap (by decide) (by decide) (by decide)]
    rfl
  · rw [foundersRewardIndex_eq _ _ 25 (by decide) (by decide) (by decide) (by decide)
      (by decide)]
    rfl
  · rw [foundersRewardIndex_eq _ _ 26 (by decide) (by decide) (by decide) (by decide)
      (by decide)]
    rfl
  · rw [foundersRewardIndex_eq _ _ 99 (by decide) (by decide) (by decide) (by decide)
      (by decide)]
    rfl

theorem C3_addressAtHeight_floor_interval_witness :
    (1 : Int) ≤ 7 ∧ (7 : Int) ≤ 10 ∧
    ((∃ interval : Nat,
      addressChangeInterval 10 3 = .ok interval ∧
      interval = ((10 : Int).toNat + 3) / 3 ∧
      interval = (10 : Int).toNat / 3 + 1 ∧
      ∃ a, (sampleParams ["A0", "A1", "A2"]).vFoundersRewardAddress[
          (7 : Int).toNat / interval]? = some a ∧
        GetFoundersRewardAddressAtHeight (fun _ => 10) (sampleParams ["A0", "A1", "A2"]) 7
          = .ok a) ∧
    (addressChangeInterval 100 4 = .ok 26 ∧
      foundersRewardIndex (fun _ => 100) (sampleParams ["A0", "A1", "A2", "A3"]) 25 = .ok 0 ∧
      foundersRewardIndex (fun _ => 100) (sampleParams ["A0", "A1", "A2", "A3"]) 26 = .ok 1 ∧
      foundersRewardIndex (fun _ => 100) (sampleParams ["A0", "A1", "A2", "A3"]) 99 = .ok 3)) :=
  ⟨by decide, by decide,
    C3_addressAtHeight_floor_interval (fun _ => 10) (sampleParams ["A0", "A1", "A2"]) 7
      (by decide) (by decide) (by decide) (by decide) (by decide)⟩

/-- C4: for `n ≥ 1` addresses and heights `h1 ≤ h2`, both in `[1, lastRewardHeight]`,
the index chosen for `h1` is at most the index chosen for `h2`. -/
theorem C4_index_monotone (lastHeight : Consensus.Params → Int) (p : CChainParams)
    (h1 h2 : Int) (hn : 1 ≤ p.vFoundersRewardAddress.length)
    (hmax : p.vFoundersRewardAddress.length ≤ VECTOR_MAX_SIZE)
    (hL : lastHeight p.consensus ≤ INT_MAX) (hlo : 1 ≤ h1) (hle : h1 ≤ h2)
    (hhi : h2 ≤ lastHeight p.consensus) :
    ∃ i1 i2 : Nat, foundersRewardIndex lastHeight p h1 = .ok i1 ∧
      foundersRewardIndex lastHeight p h2 = .ok i2 ∧ i1 ≤ i2 := by
  refine ⟨_, _, foundersRewardIndex_eq lastHeight p h1 hn hmax hL hlo (by omega),
    foundersRewardIndex_eq lastHeight p h2 hn hmax hL (by omega) hhi, ?_⟩
  exact Nat.div_le_div_right (by omega)

theorem C4_index_monotone_witness :
    (1 : Int) ≤ 25 ∧ (25 : Int) ≤ 99 ∧ (99 : Int) ≤ 100 ∧
    ∃ i1 i2 : Nat,
      foundersRewardIndex (fun _ => 100) (sampleParams ["A0", "A1", "A2", "A3"]) 25 = .ok i1 ∧
      foundersRewardIndex (fun _ => 100) (sampleParams ["A0", "A1", "A2", "A3"]) 99 = .ok i2 ∧
      i1 ≤ i2 :=
  ⟨by decide, by decide, by decide,
    C4_index_monotone (fun _ => 100) (sampleParams ["A0", "A1", "A2", "A3"]) 25 99
      (by decide) (by decide) (by decide) (by decide) (by decide) (by decide)⟩

/-- C7: `GetFoundersRewardAddressAtIndex(i)` returns the `i`-th element of the list when
`0 ≤ i < addressCount` and stops on its assertion for every other `int i`. -/
theorem C7_addressAtIndex (p : CChainParams) (i : Int) (hhi : i ≤ INT_MAX) :
    (0 ≤ i ∧ i < p.vFoundersRewardAddress.length →
      ∃ a, p.vFoundersRewardAddress[i.toNat]? = some a ∧
        GetFoundersRewardAddressAtIndex p i = .ok a) ∧
    (¬ (0 ≤ i ∧ i < p.vFoundersRewardAddress.length) →
      GetFoundersRewardAddressAtIndex p i = .error .assertion) := by
  unfold GetFoundersRewardAddressAtIndex
  constructor
  · rintro ⟨h0, hlt⟩
    have hc : toSizeT i = i.toNat := toSizeT_of_range h0 hhi
    have hlt2 : i.toNat < p.vFoundersRewardAddress.length := by omega
    refine ⟨p.vFoundersRewardAddress.get ⟨_, hlt2⟩, List.getElem?_eq_getElem hlt2, ?_⟩
    rw [hc, if_pos ⟨h0, hlt2⟩, List.getElem?_eq_getElem hlt2]
    rfl
  · intro hnot
    by_cases h0 : 0 ≤ i
    · have hc : toSizeT i = i.toNat := toSizeT_of_range h0 hhi
      rw [hc, if_neg]
      rintro ⟨_, hlt⟩
      exact hnot ⟨h0, by omega⟩
    · rw [if_neg]
      rintro ⟨hge, _⟩
      exact h0 hge

theorem C7_addressAtIndex_witness :
    INT_MIN ≤ 2 ∧ (2 : Int) ≤ INT_MAX ∧
    ((0 ≤ (2 : Int) ∧ (2 : Int) < (sampleParams ["A0", "A1", "A2"]).vFoundersRewardAddress.length →
      ∃ a, (sampleParams ["A0", "A1", "A2"]).vFoundersRewardAddress[(2 : Int).toNat]? = some a ∧
        GetFoundersRewardAddressAtIndex (sampleParams ["A0", "A1", "A2"]) 2 = .ok a) ∧
    (¬ (0 ≤ (2 : Int) ∧ (2 : Int) < (sampleParams ["A0", "A1", "A2"]).vFoundersRewardAddress.length) →
      GetFoundersRewardAddressAtIndex (sampleParams ["A0", "A1", "A2"]) 2 = .error .assertion)) :=
  ⟨by decide, by decide,
    C7_addressAtIndex (sampleParams ["A0", "A1", "A2"]) 2 (by decide)⟩

/-- C5, as stated, fails on Main: the constructed list is empty, and every in-range call
of `GetFoundersRewardAddressAtHeight` on it divides by zero. -/
theorem C5_main_list_empty :
    CMainParams.vFoundersRewardAddress = [] ∧
      GetFoundersRewardAddressAtHeight (fun _ => 840000) CMainParams 1 =
        .error .undefinedBehaviour := by
  constructor <;> rfl

/-- C5 (amended): the Testnet and Regtest parameter sets are constructed with a
non-empty founders-reward address list (48 and 1 addresses), so the divisor
`vFoundersRewardAddress.size()` is not zero on these two networks; the Main list is
constructed empty. -/
theorem C5_constructed_address_lists :
    CTestNetParams.vFoundersRewardAddress ≠ [] ∧
      CTestNetParams.vFoundersRewardAddress.length = 48 ∧
      CRegTestParams.vFoundersRewardAddress ≠ [] ∧
      CRegTestParams.vFoundersRewardAddress.length = 1 ∧
      (∀ L : Int, ∃ interval,
        addressChangeInterval L CTestNetParams.vFoundersRewardAddress.length = .ok interval ∧
        ∃ interval1,
          addressChangeInterval L CRegTestParams.vFoundersRewardAddress.length
            = .ok interval1) ∧
      CMainParams.vFoundersRewardAddress.length = 0 := by
  refine ⟨by decide, rfl, by decide, rfl, ?_, rfl⟩
  intro L
  exact ⟨_, rfl, _, rfl⟩

/-- C6: `GetFoundersRewardScriptAtHeight(h)` succeeds exactly when the address selected
by `GetFoundersRewardAddressAtHeight(h)` decodes to a valid script-hash destination; the
script is then exactly `OP_HASH160`, a push of the 20 bytes of that hash, `OP_EQUAL`;
with any other destination it stops on an assertion. -/
theorem C6_scriptAtHeight (lastHeight : Consensus.Params → Int)
    (DecodeDestination : String → CTxDestination)
    (IsValidDestination : CTxDestination → Bool) (p : CChainParams) (h : Int) :
    (∀ s, GetFoundersRewardScriptAtHeight lastHeight DecodeDestination IsValidDestination p h
        = .ok s ↔
      ∃ addr id, GetFoundersRewardAddressAtHeight lastHeight p h = .ok addr ∧
        IsValidDestination (DecodeDestination (c_str addr)) = true ∧
        DecodeDestination (c_str addr) = .CScriptID id ∧
        s = ⟨[.op .OP_HASH160, .push id.bytes, .op .OP_EQUAL]⟩) ∧
    (∀ s, GetFoundersRewardScriptAtHeight lastHeight DecodeDestination IsValidDestination p h
        = .ok s →
      ∃ data : List UInt8, data.length = 20 ∧
        s.items = [.op .OP_HASH160, .push data, .op .OP_EQUAL]) ∧
    (∀ addr, GetFoundersRewardAddressAtHeight lastHeight p h = .ok addr →
      ¬ (IsValidDestination (DecodeDestination (c_str addr)) = true ∧
        ∃ id, DecodeDestination (c_str addr) = .CScriptID id) →
      GetFoundersRewardScriptAtHeight lastHeight DecodeDestination IsValidDestination p h
        = .error .assertion) := by
  have key : ∀ s, GetFoundersRewardScriptAtHeight lastHeight DecodeDestination
      IsValidDestination p h = .ok s ↔
      ∃ addr id, GetFoundersRewardAddressAtHeight lastHeight p h = .ok addr ∧
        IsValidDestination (DecodeDestination (c_str addr)) = true ∧
        DecodeDestination (c_str addr) = .CScriptID id ∧
        s = ⟨[.op .OP_HASH160, .push id.bytes, .op .OP_EQUAL]⟩ := by
    intro s
    unfold GetFoundersRewardScriptAtHeight
    by_cases hr : h > 0 ∧ h ≤ lastHeight p.consensus
    · rw [if_pos hr]
      cases ha : GetFoundersRewardAddressAtHeight lastHeight p h with
      | error e => simp
      | ok addr =>
        simp only []
        cases hv : IsValidDestination (DecodeDestination (c_str addr)) with
        | false => simp [hv]
        | true =>
          simp only [if_true]
          cases hd : DecodeDestination (c_str addr) with
          | CNoDestination => simp [hv, hd]
          | CKeyID k => simp [hv, hd]
          | CScriptID id =>
            constructor
            · intro hs
              injection hs with hs
              exact ⟨addr, id, rfl, hv, hd, hs.symm⟩
            · rintro ⟨addr1, id1, h1, _, h3, h4⟩
              injection h1 with h1
              subst h1
              rw [hd] at h3
              injection h3 with h3
              subst h3
              rw [h4]
              rfl
    · rw [if_neg hr]
      have hfail : GetFoundersRewardAddressAtHeight lastHeight p h = .error .assertion :=
        (addressAtHeight_assertion_iff lastHeight p h).mpr (by omega)
      simp [hfail]
  refine ⟨key, ?_, ?_⟩
  · intro s hs
    obtain ⟨addr, id, _, _, _, rfl⟩ := (key s).mp hs
    exact ⟨id.bytes, id.size_eq, rfl⟩
  · intro addr ha hnot
    unfold GetFoundersRewardScriptAtHeight
    by_cases hr : h > 0 ∧ h ≤ lastHeight p.consensus
    · rw [if_pos hr, ha]
      simp only []
      cases hv : IsValidDestination (DecodeDestination (c_str addr)) with
      | false => simp
      | true =>
        simp only [if_true]
        cases hd : DecodeDestination (c_str addr) with
        | CNoDestination => rfl
        | CKeyID k => rfl
        | CScriptID id => exact absurd ⟨hv, id, hd⟩ hnot
    · rw [if_neg hr]

/-- A concrete run of `GetFoundersRewardScriptAtHeight` on the Testnet list: the 48
addresses rotate every `(100 + 48) / 48 = 3` heights, height 7 selects index 2. -/
theorem scriptAtHeight_sample :
    GetFoundersRewardScriptAtHeight (fun _ => 100) sampleDecodeDestination
        sampleIsValidDestination CTestNetParams 7 =
      .ok ⟨[.op .OP_HASH160, .push (List.replicate 20 7), .op .OP_EQUAL]⟩ ∧
    GetFoundersRewardScriptAtHeight (fun _ => 100) sampleDecodeDestination
        sampleIsValidDestination (sampleParams ["tmKeyHash"]) 7 = .error .assertion := by
  have e1 : GetFoundersRewardAddressAtHeight (fun _ => 100) CTestNetParams 7 =
      .ok "t2NGQjYMQhFndDHguvUw4wZdNdsssA6K7x2" := rfl
  have e2 : GetFoundersRewardAddressAtHeight (fun _ => 100) (sampleParams ["tmKeyHash"]) 7 =
      .ok "tmKeyHash" := rfl
  unfold GetFoundersRewardScriptAtHeight
  constructor
  · rw [if_pos (by decide), e1]
    rfl
  · rw [if_pos (by decide), e2]
    rfl

/-! ## The parameter registry: lemmas -/

/-- The reference `Params(network)` yields, when it yields one. -/
theorem ParamsNetwork_frame {β : Type} (network : Network) (g g1 : Globals β) (r : ParamsRef)
    (h : ParamsNetwork network g = .ok (r, g1)) : g1 = g ∧ ∀ g2 : Globals β,
      ParamsNetwork network g2 = .ok (r, g2) := by
  cases network <;> simp [ParamsNetwork] at h ⊢ <;> obtain ⟨rfl, rfl⟩ := h <;> simp

/-- What a successful `SelectParams` leaves behind. -/
theorem SelectParams_ok {β : Type} (SelectBaseParams : Network → β → Except Failure β)
    (network : Network) (g g1 : Globals β)
    (h : SelectParams SelectBaseParams network g = .ok ((), g1)) :
    ∃ r, ParamsNetwork network g1 = .ok (r, g1) ∧ g1.pCurrentParams = some r ∧
      SelectBaseParams network g.base = .ok g1.base ∧ g1.mapArgs = g.mapArgs ∧
      g1.mainParams = g.mainParams ∧ g1.testNetParams = g.testNetParams ∧
      g1.regTestParams =
        (if network = .REGTEST ∧ mapArgsCount g.mapArgs "-regtestprotectcoinbase" ≠ 0
          then SetRegTestCoinbaseMustBeProtected g.regTestParams else g.regTestParams) := by
  unfold SelectParams at h
  cases hb : SelectBaseParams network g.base with
  | error e => rw [hb] at h; cases h
  | ok base =>
    rw [hb] at h
    cases network <;> simp [ParamsNetwork] at h ⊢
    · subst h; simp
    · subst h; simp
    · split_ifs at h with hc
      · simp at h; subst h; simp [hc]
      · simp at h; subst h; simp [hc]

/-- `SelectParams` succeeds whenever the base selection does and the network is one of
the three. -/
theorem SelectParams_succeeds {β : Type} (SelectBaseParams : Network → β → Except Failure β)
    (network : Network) (g : Globals β) (base : β)
    (hb : SelectBaseParams network g.base = .ok base) (hn : network ≠ .MAX_NETWORK_TYPES) :
    ∃ g1, SelectParams SelectBaseParams network g = .ok ((), g1) := by
  unfold SelectParams
  rw [hb]
  cases network <;> simp [ParamsNetwork] at hn ⊢
  split_ifs <;> simp

/-- The invariant of `runSelections`: the pointer is null exactly while nothing was
selected, and otherwise is what `Params(network)` yields for the latest selection. -/
theorem runSelections_inv {β : Type} (SelectBaseParams : Network → β → Except Failure β)
    (NetworkIdFromCommandLine : Globals β → Network) (calls : List SelectionCall) :
    ∀ (g g1 : Globals β) (last last1 : Option Network),
      (last = none → g.pCurrentParams = none) →
      (∀ id, last = some id → ∃ r, ParamsNetwork id g = .ok (r, g) ∧
        g.pCurrentParams = some r) →
      runSelections SelectBaseParams NetworkIdFromCommandLine calls g last = .ok (g1, last1) →
      (last1 = none → g1.pCurrentParams = none) ∧
      (∀ id, last1 = some id → ∃ r, ParamsNetwork id g1 = .ok (r, g1) ∧
        g1.pCurrentParams = some r) := by
  induction calls with
  | nil =>
    intro g g1 last last1 hnone hsome hrun
    simp only [runSelections, Except.ok.injEq, Prod.mk.injEq] at hrun
    obtain ⟨rfl, rfl⟩ := hrun
    exact ⟨hnone, hsome⟩
  | cons c rest ih =>
    intro g g1 last last1 hnone hsome hrun
    cases c with
    | select network =>
      simp only [runSelections] at hrun
      cases hsel : SelectParams SelectBaseParams network g with
      | error e => rw [hsel] at hrun; cases hrun
      | ok res =>
        obtain ⟨u, g2⟩ := res
        rw [hsel] at hrun
        obtain ⟨r, hr, hp, -⟩ := SelectParams_ok SelectBaseParams network g g2 hsel
        refine ih g2 g1 (some network) last1 (by simp) ?_ hrun
        intro id hid
        cases hid
        exact ⟨r, hr, hp⟩
    | fromCommandLine =>
      simp only [runSelections, SelectParamsFromCommandLine] at hrun
      by_cases hmax : NetworkIdFromCommandLine g = .MAX_NETWORK_TYPES
      · rw [if_pos hmax] at hrun
        exact ih g g1 last last1 hnone hsome hrun
      · rw [if_neg hmax] at hrun
        cases hsel : SelectParams SelectBaseParams (NetworkIdFromCommandLine g) g with
        | error e => rw [hsel] at hrun; cases hrun
        | ok res =>
          obtain ⟨u, g2⟩ := res
          rw [hsel] at hrun
          obtain ⟨r, hr, hp, -⟩ := SelectParams_ok SelectBaseParams _ g g2 hsel
          refine ih g2 g1 (some (NetworkIdFromCommandLine g)) last1 (by simp) ?_ hrun
          intro id hid
          cases hid
          exact ⟨r, hr, hp⟩

/-! ## The parameter registry: the claims -/

/-- C8: after any sequence of selection calls from a state with no selection, `Params()`
stops on its assertion if and only if no network has been selected yet; when the latest
successful selection was `id`, `Params()` returns the same parameter set as
`Params(id)`. -/
theorem C8_activeParams {β : Type} (SelectBaseParams : Network → β → Except Failure β)
    (NetworkIdFromCommandLine : Globals β → Network) (calls : List SelectionCall)
    (g0 g : Globals β) (last : Option Network) (h0 : g0.pCurrentParams = none)
    (hrun : runSelections SelectBaseParams NetworkIdFromCommandLine calls g0 none
      = .ok (g, last)) :
    (Params g = .error .assertion ↔ last = none) ∧
    ((∃ e, Params g = .error e) ↔ last = none) ∧
    (∀ id, last = some id →
      ∃ r, Params g = .ok (r, g) ∧ ParamsNetwork id g = .ok (r, g)) := by
  obtain ⟨hnone, hsome⟩ := runSelections_inv SelectBaseParams NetworkIdFromCommandLine calls
    g0 g none last (fun _ => h0) (by intro id hid; cases hid) hrun
  cases last with
  | none =>
    have hp := hnone rfl
    simp [Params, hp]
  | some id =>
    obtain ⟨r, hr, hp⟩ := hsome id rfl
    refine ⟨by simp [Params, hp], by simp [Params, hp], ?_⟩
    intro id1 hid
    cases hid
    exact ⟨r, by simp [Params, hp], hr⟩

theorem C8_activeParams_witness :
    (initialGlobals () [] : Globals Unit).pCurrentParams = none ∧
    ((Params ({ initialGlobals () [] with pCurrentParams := some .testNetParams } :
        Globals Unit) = .error .assertion ↔ some Network.TESTNET = none) ∧
    ((∃ e, Params ({ initialGlobals () [] with pCurrentParams := some .testNetParams } :
        Globals Unit) = .error e) ↔ some Network.TESTNET = none) ∧
    (∀ id, some Network.TESTNET = some id →
      ∃ r, Params ({ initialGlobals () [] with pCurrentParams := some .testNetParams } :
          Globals Unit)
          = .ok (r, { initialGlobals () [] with pCurrentParams := some .testNetParams }) ∧
        ParamsNetwork id ({ initialGlobals () [] with pCurrentParams := some .testNetParams } :
          Globals Unit)
          = .ok (r, { initialGlobals () [] with pCurrentParams := some .testNetParams }))) :=
  ⟨rfl, C8_activeParams sampleSelectBaseParams sampleNetworkIdFromCommandLine
    [.select .MAIN, .fromCommandLine, .select .TESTNET] (initialGlobals () [])
    { initialGlobals () [] with pCurrentParams := some .testNetParams } (some .TESTNET)
    rfl rfl⟩

/-- C9, as stated, fails: after `SelectParams(MAIN)` has succeeded, `SelectParams(TESTNET)`
succeeds as well and moves the selection to the Testnet parameter set. -/
theorem C9_reselect_counterexample :
    SelectParams sampleSelectBaseParams .MAIN (initialGlobals () []) =
      .ok ((), { initialGlobals () [] with pCurrentParams := some .mainParams }) ∧
    SelectParams sampleSelectBaseParams .TESTNET
        { initialGlobals () [] with pCurrentParams := some .mainParams } =
      .ok ((), { initialGlobals () [] with pCurrentParams := some .testNetParams }) ∧
    Params ({ initialGlobals () [] with pCurrentParams := some .testNetParams } : Globals Unit) =
      .ok (.testNetParams, { initialGlobals () [] with pCurrentParams := some .testNetParams }) := by
  refine ⟨rfl, rfl, rfl⟩

/-- C9 (amended): after `SelectParams(a)` has succeeded, a second call `SelectParams(b)`
with `b` one of the three networks and accepted by the base-parameter selection succeeds
and makes `b` the selection (also when `b` differs from `a`), changing no parameter set
other than Regtest's coinbase flag; `SelectParams(a)` again is tolerated and leaves the
selection, the argument map and all three parameter sets unchanged. -/
theorem C9_reselect {β : Type} (SelectBaseParams : Network → β → Except Failure β)
    (a b : Network) (g g1 : Globals β)
    (hfirst : SelectParams SelectBaseParams a g = .ok ((), g1)) :
    (∀ base, SelectBaseParams b g1.base = .ok base → b ≠ .MAX_NETWORK_TYPES →
      ∃ g2 r, SelectParams SelectBaseParams b g1 = .ok ((), g2) ∧
        ParamsNetwork b g2 = .ok (r, g2) ∧ Params g2 = .ok (r, g2) ∧
        g2.mainParams = g1.mainParams ∧ g2.testNetParams = g1.testNetParams) ∧
    (∀ base, SelectBaseParams a g1.base = .ok base →
      SelectParams SelectBaseParams a g1 = .ok ((), { g1 with base := base })) := by
  constructor
  · intro base hb hn
    obtain ⟨g2, hsel⟩ := SelectParams_succeeds SelectBaseParams b g1 base hb hn
    obtain ⟨r, hr, hp, -, -, hm, ht, -⟩ := SelectParams_ok SelectBaseParams b g1 g2 hsel
    exact ⟨g2, r, hsel, hr, by simp [Params, hp], hm, ht⟩
  · intro base hb
    obtain ⟨r, hr, hp, -, hargs, -, -, hreg⟩ := SelectParams_ok SelectBaseParams a g g1 hfirst
    unfold SelectParams
    rw [hb]
    cases a <;> simp [ParamsNetwork] at hr ⊢
    · subst hr; rw [← hp]
    · subst hr; rw [← hp]
    · subst hr
      rw [← hp]
      simp only [true_and] at hreg
      by_cases hc : mapArgsCount g1.mapArgs "-regtestprotectcoinbase" = 0
      · simp [hc]
      · have hc1 : mapArgsCount g.mapArgs "-regtestprotectcoinbase" ≠ 0 := by
          rw [← hargs]; exact hc
        rw [if_pos hc1] at hreg
        have : SetRegTestCoinbaseMustBeProtected g1.regTestParams = g1.regTestParams := by
          rw [hreg]; rfl
        simp [hc, this]

theorem C9_reselect_witness :
    (∀ base, sampleSelectBaseParams .TESTNET
        ({ initialGlobals () [] with pCurrentParams := some .mainParams } : Globals Unit).base
        = .ok base → Network.TESTNET ≠ .MAX_NETWORK_TYPES →
      ∃ g2 r, SelectParams sampleSelectBaseParams .TESTNET
          { initialGlobals () [] with pCurrentParams := some .mainParams } = .ok ((), g2) ∧
        ParamsNetwork .TESTNET g2 = .ok (r, g2) ∧ Params g2 = .ok (r, g2) ∧
        g2.mainParams = CMainParams ∧ g2.testNetParams = CTestNetParams) ∧
    (∀ base, sampleSelectBaseParams .MAIN
        ({ initialGlobals () [] with pCurrentParams := some .mainParams } : Globals Unit).base
        = .ok base →
      SelectParams sampleSelectBaseParams .MAIN
          { initialGlobals () [] with pCurrentParams := some .mainParams } =
        .ok ((), { ({ initialGlobals () [] with pCurrentParams := some .mainParams } :
          Globals Unit) with base := base })) :=
  C9_reselect sampleSelectBaseParams .MAIN .TESTNET (initialGlobals () [])
    { initialGlobals () [] with pCurrentParams := some .mainParams } rfl

/-- C10: for each of `MAIN`, `TESTNET`, `REGTEST` and every registry state,
`Params(network)` returns that network's parameter object and leaves the selection and
all three parameter sets unchanged; for any other network value it stops on an
assertion. -/
theorem C10_paramsFor {β : Type} (g : Globals β) :
    ParamsNetwork .MAIN g = .ok (.mainParams, g) ∧
    ParamsNetwork .TESTNET g = .ok (.testNetParams, g) ∧
    ParamsNetwork .REGTEST g = .ok (.regTestParams, g) ∧
    g.deref .mainParams = g.mainParams ∧
    g.deref .testNetParams = g.testNetParams ∧
    g.deref .regTestParams = g.regTestParams ∧
    (∀ network r g1, ParamsNetwork network g = .ok (r, g1) →
      g1.pCurrentParams = g.pCurrentParams ∧ g1.mainParams = g.mainParams ∧
      g1.testNetParams = g.testNetParams ∧ g1.regTestParams = g.regTestParams) ∧
    (∀ network, network ≠ .MAIN → network ≠ .TESTNET → network ≠ .REGTEST →
      ParamsNetwork network g = .error .assertion) := by
  refine ⟨rfl, rfl, rfl, rfl, rfl, rfl, ?_, ?_⟩
  · intro network r g1 h
    obtain ⟨rfl, -⟩ := ParamsNetwork_frame network g g1 r h
    exact ⟨rfl, rfl, rfl, rfl⟩
  · intro network h1 h2 h3
    cases network <;> simp_all [ParamsNetwork]

/-! ## Selection side effects and the command-line entry point -/

/-- C11: starting from a Regtest set whose `fCoinbaseMustBeProtected` is false (as
constructed), a successful `SelectParams(network)` leaves the flag true if and only if
`network` is `REGTEST` and `-regtestprotectcoinbase` is present; then only that flag of
the Regtest set changes, in every other case the Regtest set keeps its value, and the
Main and Testnet sets are unchanged in all cases. -/
theorem C11_select_coinbase_flag {β : Type}
    (SelectBaseParams : Network → β → Except Failure β) (network : Network)
    (g g1 : Globals β)
    (hflag : g.regTestParams.consensus.fCoinbaseMustBeProtected = false)
    (hsel : SelectParams SelectBaseParams network g = .ok ((), g1)) :
    (g1.regTestParams.consensus.fCoinbaseMustBeProtected = true ↔
      (network = .REGTEST ∧ mapArgsCount g.mapArgs "-regtestprotectcoinbase" ≠ 0)) ∧
    (network = .REGTEST ∧ mapArgsCount g.mapArgs "-regtestprotectcoinbase" ≠ 0 →
      g1.regTestParams = { g.regTestParams with
        consensus := { g.regTestParams.consensus with fCoinbaseMustBeProtected := true } }) ∧
    (¬ (network = .REGTEST ∧ mapArgsCount g.mapArgs "-regtestprotectcoinbase" ≠ 0) →
      g1.regTestParams = g.regTestParams) ∧
    g1.mainParams = g.mainParams ∧ g1.testNetParams = g.testNetParams := by
  obtain ⟨r, -, -, -, -, hm, ht, hreg⟩ := SelectParams_ok SelectBaseParams network g g1 hsel
  by_cases hc : network = .REGTEST ∧ mapArgsCount g.mapArgs "-regtestprotectcoinbase" ≠ 0
  · rw [if_pos hc] at hreg
    refine ⟨?_, fun _ => hreg, fun hn => absurd hc hn, hm, ht⟩
    rw [hreg]
    exact ⟨fun _ => hc, fun _ => rfl⟩
  · rw [if_neg hc] at hreg
    refine ⟨?_, fun h => absurd h hc, fun _ => hreg, hm, ht⟩
    rw [hreg, hflag]
    exact ⟨fun h => Bool.noConfusion h, fun h => absurd h hc⟩

theorem C11_select_coinbase_flag_witness :
    CRegTestParams.consensus.fCoinbaseMustBeProtected = false ∧
    ((SetRegTestCoinbaseMustBeProtected CRegTestParams).consensus.fCoinbaseMustBeProtected
        = true ↔
      (Network.REGTEST = .REGTEST ∧
        mapArgsCount [("-regtestprotectcoinbase", "")] "-regtestprotectcoinbase" ≠ 0)) :=
  ⟨rfl, (C11_select_coinbase_flag sampleSelectBaseParams .REGTEST
    (initialGlobals () [("-regtestprotectcoinbase", "")])
    { initialGlobals () [("-regtestprotectcoinbase", "")] with
      pCurrentParams := some .regTestParams,
      regTestParams := SetRegTestCoinbaseMustBeProtected CRegTestParams } rfl rfl).1⟩

/-- C12: `SelectParamsFromCommandLine` returns false if and only if
`NetworkIdFromCommandLine` yields `MAX_NETWORK_TYPES`, and then the whole state is
unchanged; otherwise (the base-parameter selection accepting the network) it returns
true and `Params()` is the parameter set of the identified network. -/
theorem C12_selectFromCommandLine {β : Type}
    (SelectBaseParams : Network → β → Except Failure β)
    (NetworkIdFromCommandLine : Globals β → Network) (g : Globals β) :
    (NetworkIdFromCommandLine g = .MAX_NETWORK_TYPES →
      SelectParamsFromCommandLine SelectBaseParams NetworkIdFromCommandLine g
        = .ok (false, g)) ∧
    (∀ b g1, SelectParamsFromCommandLine SelectBaseParams NetworkIdFromCommandLine g
        = .ok (b, g1) →
      (b = false ↔ NetworkIdFromCommandLine g = .MAX_NETWORK_TYPES)) ∧
    (NetworkIdFromCommandLine g ≠ .MAX_NETWORK_TYPES →
      ∀ base, SelectBaseParams (NetworkIdFromCommandLine g) g.base = .ok base →
      ∃ g1 r, SelectParamsFromCommandLine SelectBaseParams NetworkIdFromCommandLine g
          = .ok (true, g1) ∧
        Params g1 = .ok (r, g1) ∧ ParamsNetwork (NetworkIdFromCommandLine g) g1 = .ok (r, g1)) := by
  unfold SelectParamsFromCommandLine
  simp only []
  refine ⟨fun hmax => by rw [if_pos hmax], ?_, ?_⟩
  · intro b g1 hres
    by_cases hmax : NetworkIdFromCommandLine g = .MAX_NETWORK_TYPES
    · rw [if_pos hmax] at hres
      simp only [Except.ok.injEq, Prod.mk.injEq] at hres
      simp [hmax, ← hres.1]
    · rw [if_neg hmax] at hres
      cases hsel : SelectParams SelectBaseParams (NetworkIdFromCommandLine g) g with
      | error e => rw [hsel] at hres; cases hres
      | ok res =>
        rw [hsel] at hres
        simp only [Except.ok.injEq, Prod.mk.injEq] at hres
        simp [hmax, ← hres.1]
  · intro hmax base hb
    obtain ⟨g1, hsel⟩ := SelectParams_succeeds SelectBaseParams _ g base hb hmax
    obtain ⟨r, hr, hp, -⟩ := SelectParams_ok SelectBaseParams _ g g1 hsel
    refine ⟨g1, r, ?_, by simp [Params, hp], hr⟩
    rw [if_neg hmax, hsel]

/-! ## The upgrade-height mutation entry point: lemmas and claims -/

/-- When `UpdateNetworkUpgradeParameters` succeeds and what it then leaves behind. -/
theorem UpdateNetworkUpgradeParameters_ok_iff {β : Type} (idx : Consensus.UpgradeIndex)
    (h : Int) (g g1 : Globals β) :
    UpdateNetworkUpgradeParameters idx h g = .ok ((), g1) ↔
      (Consensus.UpgradeIndex.BASE_SPROUT.toNat < idx.toNat ∧
        idx.toNat < Consensus.UpgradeIndex.MAX_NETWORK_UPGRADES.toNat) ∧
      ∃ a, g.regTestParams.consensus.vUpgrades.setActivationHeight idx h = some a ∧
        g1 = { g with regTestParams := { g.regTestParams with
          consensus := { g.regTestParams.consensus with vUpgrades := a } } } := by
  unfold UpdateNetworkUpgradeParameters CRegTestParams.UpdateNetworkUpgradeParameters
  cases idx <;>
    simp [Consensus.UpgradeIndex.toNat, Consensus.UpgradeArray.setActivationHeight, eq_comm]

/-- Outside the admitted indices `UpdateNetworkUpgradeParameters` stops on its
assertion. -/
theorem UpdateNetworkUpgradeParameters_assertion {β : Type} (idx : Consensus.UpgradeIndex)
    (h : Int) (g : Globals β)
    (hidx : ¬ (Consensus.UpgradeIndex.BASE_SPROUT.toNat < idx.toNat ∧
      idx.toNat < Consensus.UpgradeIndex.MAX_NETWORK_UPGRADES.toNat)) :
    UpdateNetworkUpgradeParameters idx h g = .error .assertion := by
  unfold UpdateNetworkUpgradeParameters CRegTestParams.UpdateNetworkUpgradeParameters
  cases idx <;> simp [Consensus.UpgradeIndex.toNat] at hidx ⊢

/-- For an admitted index `UpdateNetworkUpgradeParameters` succeeds. -/
theorem UpdateNetworkUpgradeParameters_succeeds {β : Type} (idx : Consensus.UpgradeIndex)
    (h : Int) (g : Globals β)
    (hidx : Consensus.UpgradeIndex.BASE_SPROUT.toNat < idx.toNat ∧
      idx.toNat < Consensus.UpgradeIndex.MAX_NETWORK_UPGRADES.toNat) :
    ∃ g1, UpdateNetworkUpgradeParameters idx h g = .ok ((), g1) := by
  unfold UpdateNetworkUpgradeParameters CRegTestParams.UpdateNetworkUpgradeParameters
  cases idx <;>
    simp [Consensus.UpgradeIndex.toNat, Consensus.UpgradeArray.setActivationHeight] at hidx ⊢

/-- The entries of the table after a write of an activation height. -/
theorem setActivationHeight_get? (a a1 : Consensus.UpgradeArray) (idx : Consensus.UpgradeIndex)
    (h : Int) (hset : a.setActivationHeight idx h = some a1) :
    (∃ u, a.get? idx = some u ∧ a1.get? idx = some { u with nActivationHeight := h }) ∧
    (∀ j, j ≠ idx → a1.get? j = a.get? j) := by
  cases idx <;> simp [Consensus.UpgradeArray.setActivationHeight] at hset <;> subst hset <;>
    refine ⟨⟨_, rfl, rfl⟩, ?_⟩ <;> intro j hj <;> cases j <;>
    first | rfl | exact absurd rfl hj

/-- C13: `UpdateNetworkUpgradeParameters(idx, height)` succeeds if and only if
`BASE_SPROUT < idx < MAX_NETWORK_UPGRADES` and otherwise stops on its assertion before
any write; on success the Regtest entry `idx` has activation height exactly `height`,
while its protocol version, every other Regtest entry, the other Regtest fields, the
Main and Testnet sets and the rest of the state are unchanged. -/
theorem C13_setActivationHeight {β : Type} (idx : Consensus.UpgradeIndex) (h : Int)
    (g : Globals β) :
    ((∃ g1, UpdateNetworkUpgradeParameters idx h g = .ok ((), g1)) ↔
      (Consensus.UpgradeIndex.BASE_SPROUT.toNat < idx.toNat ∧
        idx.toNat < Consensus.UpgradeIndex.MAX_NETWORK_UPGRADES.toNat)) ∧
    (¬ (Consensus.UpgradeIndex.BASE_SPROUT.toNat < idx.toNat ∧
        idx.toNat < Consensus.UpgradeIndex.MAX_NETWORK_UPGRADES.toNat) →
      UpdateNetworkUpgradeParameters idx h g = .error .assertion) ∧
    (∀ g1, UpdateNetworkUpgradeParameters idx h g = .ok ((), g1) →
      activationHeight g1.regTestParams.consensus.vUpgrades idx = some h ∧
      (g1.regTestParams.consensus.vUpgrades.get? idx).map (fun u => u.nProtocolVersion) =
        (g.regTestParams.consensus.vUpgrades.get? idx).map (fun u => u.nProtocolVersion) ∧
      (∀ j, j ≠ idx → g1.regTestParams.consensus.vUpgrades.get? j =
        g.regTestParams.consensus.vUpgrades.get? j) ∧
      g1.regTestParams = { g.regTestParams with consensus :=
        { g.regTestParams.consensus with
          vUpgrades := g1.regTestParams.consensus.vUpgrades } } ∧
      g1.mainParams = g.mainParams ∧ g1.testNetParams = g.testNetParams ∧
      g1.pCurrentParams = g.pCurrentParams ∧ g1.mapArgs = g.mapArgs ∧ g1.base = g.base) := by
  refine ⟨⟨?_, UpdateNetworkUpgradeParameters_succeeds idx h g⟩,
    UpdateNetworkUpgradeParameters_assertion idx h g, ?_⟩
  · rintro ⟨g1, hok⟩
    exact ((UpdateNetworkUpgradeParameters_ok_iff idx h g g1).mp hok).1
  · intro g1 hok
    obtain ⟨-, a, hset, rfl⟩ := (UpdateNetworkUpgradeParameters_ok_iff idx h g g1).mp hok
    obtain ⟨⟨u, hu, hu1⟩, hother⟩ := setActivationHeight_get? _ a idx h hset
    refine ⟨?_, ?_, hother, rfl, rfl, rfl, rfl, rfl, rfl⟩
    · simp only [activationHeight, hu1, Option.map_some']
    · simp only [hu, hu1, Option.map_some']

/-- C14, as stated, fails: with Main selected, `UpdateNetworkUpgradeParameters` with
`UPGRADE_OVERWINTER` and height 10 succeeds and changes the Regtest upgrade table. -/
theorem C14_update_under_main_counterexample :
    Params ({ initialGlobals () [] with pCurrentParams := some .mainParams } : Globals Unit) =
      .ok (.mainParams, { initialGlobals () [] with pCurrentParams := some .mainParams }) ∧
    activationHeight CRegTestParams.consensus.vUpgrades .UPGRADE_OVERWINTER =
      some Consensus.NetworkUpgrade.NO_ACTIVATION_HEIGHT ∧
    ∃ g1 : Globals Unit,
      UpdateNetworkUpgradeParameters .UPGRADE_OVERWINTER 10
        ({ initialGlobals () [] with pCurrentParams := some .mainParams } : Globals Unit)
        = .ok ((), g1) ∧
      activationHeight g1.regTestParams.consensus.vUpgrades .UPGRADE_OVERWINTER = some 10 :=
  ⟨rfl, rfl, _, rfl, rfl⟩

/-- C14 (amended): with Main or Testnet selected, `UpdateNetworkUpgradeParameters` stops
on its assertion exactly when `idx` is not strictly between `BASE_SPROUT` and
`MAX_NETWORK_UPGRADES`; for every other `idx` and every height it succeeds, stores the
height in the Regtest table and leaves the Main and Testnet upgrade tables and the
selection unchanged. -/
theorem C14_update_ignores_selection {β : Type} (idx : Consensus.UpgradeIndex) (h : Int)
    (g : Globals β)
    (hsel : g.pCurrentParams = some .mainParams ∨ g.pCurrentParams = some .testNetParams) :
    (¬ (Consensus.UpgradeIndex.BASE_SPROUT.toNat < idx.toNat ∧
        idx.toNat < Consensus.UpgradeIndex.MAX_NETWORK_UPGRADES.toNat) →
      UpdateNetworkUpgradeParameters idx h g = .error .assertion) ∧
    ((Consensus.UpgradeIndex.BASE_SPROUT.toNat < idx.toNat ∧
        idx.toNat < Consensus.UpgradeIndex.MAX_NETWORK_UPGRADES.toNat) →
      ∃ g1, UpdateNetworkUpgradeParameters idx h g = .ok ((), g1) ∧
        activationHeight g1.regTestParams.consensus.vUpgrades idx = some h ∧
        g1.mainParams.consensus.vUpgrades = g.mainParams.consensus.vUpgrades ∧
        g1.testNetParams.consensus.vUpgrades = g.testNetParams.consensus.vUpgrades ∧
        g1.pCurrentParams = g.pCurrentParams ∧
        (Params g1 = .ok (.mainParams, g1) ∨ Params g1 = .ok (.testNetParams, g1))) := by
  refine ⟨UpdateNetworkUpgradeParameters_assertion idx h g, ?_⟩
  intro hidx
  obtain ⟨g1, hok⟩ := UpdateNetworkUpgradeParameters_succeeds idx h g hidx
  obtain ⟨-, a, hset, hg1⟩ := (UpdateNetworkUpgradeParameters_ok_iff idx h g g1).mp hok
  obtain ⟨⟨u, -, hu1⟩, -⟩ := setActivationHeight_get? _ a idx h hset
  refine ⟨g1, hok, ?_, by rw [hg1], by rw [hg1], by rw [hg1], ?_⟩
  · rw [hg1]
    simp only [activationHeight, hu1, Option.map_some']
  · rcases hsel with hs | hs
    · left; rw [hg1]; simp [Params, hs]
    · right; rw [hg1]; simp [Params, hs]

theorem C14_update_ignores_selection_witness :
    (({ initialGlobals () [] with pCurrentParams := some .testNetParams } :
        Globals Unit).pCurrentParams = some .mainParams ∨
      ({ initialGlobals () [] with pCurrentParams := some .testNetParams } :
        Globals Unit).pCurrentParams = some .testNetParams) ∧
    (Consensus.UpgradeIndex.BASE_SPROUT.toNat < Consensus.UpgradeIndex.UPGRADE_SAPLING.toNat ∧
      Consensus.UpgradeIndex.UPGRADE_SAPLING.toNat <
        Consensus.UpgradeIndex.MAX_NETWORK_UPGRADES.toNat) ∧
    ∃ g1, UpdateNetworkUpgradeParameters .UPGRADE_SAPLING 20
        ({ initialGlobals () [] with pCurrentParams := some .testNetParams } : Globals Unit)
        = .ok ((), g1) ∧
      activationHeight g1.regTestParams.consensus.vUpgrades .UPGRADE_SAPLING = some 20 ∧
      g1.mainParams.consensus.vUpgrades = CMainParams.consensus.vUpgrades ∧
      g1.testNetParams.consensus.vUpgrades = CTestNetParams.consensus.vUpgrades ∧
      g1.pCurrentParams = some .testNetParams ∧
      (Params g1 = .ok (.mainParams, g1) ∨ Params g1 = .ok (.testNetParams, g1)) :=
  ⟨Or.inr rfl, by decide,
    (C14_update_ignores_selection .UPGRADE_SAPLING 20
      ({ initialGlobals () [] with pCurrentParams := some .testNetParams } : Globals Unit)
      (Or.inr rfl)).2 (by decide)⟩

/-! ## The upgrade tables: ordering, base era, protocol version -/

/-- The constructed Main table is ordered. -/
theorem main_table_ordered : activationOrdered CMainParams.consensus.vUpgrades := by
  intro i j hij hi hmi hj hmj ri rj
  cases i <;> cases j <;>
    simp [activationHeight, Consensus.UpgradeArray.get?, Consensus.UpgradeIndex.toNat,
      CMainParams, isRealHeight, Consensus.NetworkUpgrade.ALWAYS_ACTIVE,
      Consensus.NetworkUpgrade.NO_ACTIVATION_HEIGHT] at hij hmi hmj ri rj ⊢ <;>
    omega

/-- The constructed Testnet table is ordered. -/
theorem testnet_table_ordered : activationOrdered CTestNetParams.consensus.vUpgrades := by
  intro i j hij hi hmi hj hmj ri rj
  cases i <;> cases j <;>
    simp [activationHeight, Consensus.UpgradeArray.get?, Consensus.UpgradeIndex.toNat,
      CTestNetParams, isRealHeight, Consensus.NetworkUpgrade.ALWAYS_ACTIVE,
      Consensus.NetworkUpgrade.NO_ACTIVATION_HEIGHT] at hij hmi hmj ri rj ⊢ <;>
    omega

/-- The constructed Regtest table is ordered (it has no real activation height). -/
theorem regtest_table_ordered : activationOrdered CRegTestParams.consensus.vUpgrades := by
  intro i j hij hi hmi hj hmj ri rj
  cases i <;> cases j <;>
    simp [activationHeight, Consensus.UpgradeArray.get?, Consensus.UpgradeIndex.toNat,
      CRegTestParams, isRealHeight, Consensus.NetworkUpgrade.ALWAYS_ACTIVE,
      Consensus.NetworkUpgrade.NO_ACTIVATION_HEIGHT] at hij hmi hmj ri rj ⊢ <;>
    omega

/-- C15: in each of the three upgrade tables as constructed, for every pair of indices
`i < j` whose activation heights are both non-sentinel,
`activationHeight(i) ≤ activationHeight(j)`; the only such pairs are
(Overwinter, Sapling) on Main and on Testnet. -/
theorem C15_constructed_tables_ordered :
    activationOrdered CMainParams.consensus.vUpgrades ∧
    activationOrdered CTestNetParams.consensus.vUpgrades ∧
    activationOrdered CRegTestParams.consensus.vUpgrades ∧
    activationHeight CMainParams.consensus.vUpgrades .UPGRADE_OVERWINTER = some 347500 ∧
    activationHeight CMainParams.consensus.vUpgrades .UPGRADE_SAPLING = some 419200 ∧
    activationHeight CTestNetParams.consensus.vUpgrades .UPGRADE_OVERWINTER = some 207500 ∧
    activationHeight CTestNetParams.consensus.vUpgrades .UPGRADE_SAPLING = some 280000 :=
  ⟨main_table_ordered, testnet_table_ordered, regtest_table_ordered, rfl, rfl, rfl, rfl⟩

/-- C16, as stated, fails: from the constructed Regtest table, storing height 100 for
Overwinter and then height 50 for Sapling both succeed, and the stored sequence is not
monotonic. -/
theorem C16_non_monotonic_counterexample :
    ∃ g : Globals Unit,
      runCalls sampleSelectBaseParams sampleNetworkIdFromCommandLine
        [.updateUpgrade .UPGRADE_OVERWINTER 100, .updateUpgrade .UPGRADE_SAPLING 50]
        (initialGlobals () []) = .ok g ∧
      activationHeight g.regTestParams.consensus.vUpgrades .UPGRADE_OVERWINTER = some 100 ∧
      activationHeight g.regTestParams.consensus.vUpgrades .UPGRADE_SAPLING = some 50 ∧
      ¬ activationOrdered g.regTestParams.consensus.vUpgrades :=
  ⟨_, rfl, rfl, rfl, fun hord =>
    absurd (hord .UPGRADE_OVERWINTER .UPGRADE_SAPLING (by decide) 100 rfl 50 rfl
      (by decide) (by decide)) (by decide)⟩

/-- C16 (amended): the ordering invariant holds in the constructed Regtest table;
`UpdateNetworkUpgradeParameters` checks only the index, so every call with
`BASE_SPROUT < idx < MAX_NETWORK_UPGRADES` succeeds and stores the height; the invariant
is kept by such a call when the new height is a sentinel or is ordered with respect to
the real heights of the other entries. -/
theorem C16_update_ordering {β : Type} (idx : Consensus.UpgradeIndex) (h : Int)
    (g : Globals β)
    (hidx : Consensus.UpgradeIndex.BASE_SPROUT.toNat < idx.toNat ∧
      idx.toNat < Consensus.UpgradeIndex.MAX_NETWORK_UPGRADES.toNat) :
    activationOrdered CRegTestParams.consensus.vUpgrades ∧
    ∃ g1, UpdateNetworkUpgradeParameters idx h g = .ok ((), g1) ∧
      activationHeight g1.regTestParams.consensus.vUpgrades idx = some h ∧
      (activationOrdered g.regTestParams.consensus.vUpgrades →
        (isRealHeight h → ∀ j hj,
          activationHeight g.regTestParams.consensus.vUpgrades j = some hj →
          isRealHeight hj → (j.toNat < idx.toNat → hj ≤ h) ∧ (idx.toNat < j.toNat → h ≤ hj)) →
        activationOrdered g1.regTestParams.consensus.vUpgrades) := by
  refine ⟨regtest_table_ordered, ?_⟩
  obtain ⟨g1, hok⟩ := UpdateNetworkUpgradeParameters_succeeds idx h g hidx
  obtain ⟨-, a, hset, hg1⟩ := (UpdateNetworkUpgradeParameters_ok_iff idx h g g1).mp hok
  obtain ⟨⟨u, -, hu1⟩, hother⟩ := setActivationHeight_get? _ a idx h hset
  have hnew : activationHeight a idx = some h := by
    simp only [activationHeight, hu1, Option.map_some']
  have hold : ∀ k, k ≠ idx →
      activationHeight a k = activationHeight g.regTestParams.consensus.vUpgrades k := by
    intro k hk
    simp only [activationHeight, hother k hk]
  refine ⟨g1, hok, by rw [hg1]; exact hnew, ?_⟩
  intro hord hcond
  rw [hg1]
  intro i j hij hi hmi hj hmj ri rj
  have hmi1 : activationHeight a i = some hi := hmi
  have hmj1 : activationHeight a j = some hj := hmj
  by_cases ei : i = idx
  · by_cases ej : j = idx
    · rw [ei, ej] at hij
      exact absurd hij (Nat.lt_irrefl _)
    · rw [ei, hnew] at hmi1
      cases hmi1
      rw [hold j ej] at hmj1
      rw [ei] at hij
      exact ((hcond ri j hj hmj1 rj).2 hij)
  · by_cases ej : j = idx
    · rw [ej, hnew] at hmj1
      cases hmj1
      rw [hold i ei] at hmi1
      rw [ej] at hij
      exact ((hcond rj i hi hmi1 ri).1 hij)
    · rw [hold i ei] at hmi1
      rw [hold j ej] at hmj1
      exact hord i j hij hi hmi1 hj hmj1 ri rj

theorem C16_update_ordering_witness :
    (Consensus.UpgradeIndex.BASE_SPROUT.toNat < Consensus.UpgradeIndex.UPGRADE_SAPLING.toNat ∧
      Consensus.UpgradeIndex.UPGRADE_SAPLING.toNat <
        Consensus.UpgradeIndex.MAX_NETWORK_UPGRADES.toNat) ∧
    activationOrdered CRegTestParams.consensus.vUpgrades ∧
    ∃ g1, UpdateNetworkUpgradeParameters .UPGRADE_SAPLING 50 (initialGlobals () [] : Globals Unit)
        = .ok ((), g1) ∧
      activationHeight g1.regTestParams.consensus.vUpgrades .UPGRADE_SAPLING = some 50 ∧
      (activationOrdered (initialGlobals () [] : Globals Unit).regTestParams.consensus.vUpgrades →
        (isRealHeight 50 → ∀ j hj,
          activationHeight (initialGlobals () [] : Globals Unit).regTestParams.consensus.vUpgrades j
            = some hj →
          isRealHeight hj →
            (j.toNat < Consensus.UpgradeIndex.UPGRADE_SAPLING.toNat → hj ≤ 50) ∧
            (Consensus.UpgradeIndex.UPGRADE_SAPLING.toNat < j.toNat → 50 ≤ hj)) →
        activationOrdered g1.regTestParams.consensus.vUpgrades) :=
  ⟨by decide, C16_update_ordering .UPGRADE_SAPLING 50 (initialGlobals () [] : Globals Unit)
    (by decide)⟩

/-- `SelectParams` changes no upgrade table. -/
theorem SelectParams_tables {β : Type} (SelectBaseParams : Network → β → Except Failure β)
    (network : Network) (g g1 : Globals β)
    (h : SelectParams SelectBaseParams network g = .ok ((), g1)) :
    g1.mainParams = g.mainParams ∧ g1.testNetParams = g.testNetParams ∧
      g1.regTestParams.consensus.vUpgrades = g.regTestParams.consensus.vUpgrades := by
  obtain ⟨r, -, -, -, -, hm, ht, hreg⟩ := SelectParams_ok SelectBaseParams network g g1 h
  refine ⟨hm, ht, ?_⟩
  rw [hreg]
  split_ifs <;> rfl

/-- `UpdateNetworkUpgradeParameters` changes neither the Main or Testnet set, nor the
base entry, nor any protocol version of the Regtest table. -/
theorem UpdateNetworkUpgradeParameters_tables {β : Type} (idx : Consensus.UpgradeIndex)
    (h : Int) (g g1 : Globals β)
    (hok : UpdateNetworkUpgradeParameters idx h g = .ok ((), g1)) :
    g1.mainParams = g.mainParams ∧ g1.testNetParams = g.testNetParams ∧
      g1.regTestParams.consensus.vUpgrades.BASE_SPROUT =
        g.regTestParams.consensus.vUpgrades.BASE_SPROUT ∧
      g1.regTestParams.consensus.vUpgrades.UPGRADE_TESTDUMMY.nProtocolVersion =
        g.regTestParams.consensus.vUpgrades.UPGRADE_TESTDUMMY.nProtocolVersion ∧
      g1.regTestParams.consensus.vUpgrades.UPGRADE_OVERWINTER.nProtocolVersion =
        g.regTestParams.consensus.vUpgrades.UPGRADE_OVERWINTER.nProtocolVersion ∧
      g1.regTestParams.consensus.vUpgrades.UPGRADE_SAPLING.nProtocolVersion =
        g.regTestParams.consensus.vUpgrades.UPGRADE_SAPLING.nProtocolVersion := by
  obtain ⟨hidx, a, hset, rfl⟩ := (UpdateNetworkUpgradeParameters_ok_iff idx h g g1).mp hok
  cases idx <;>
    simp [Consensus.UpgradeArray.setActivationHeight, Consensus.UpgradeIndex.toNat]
      at hset hidx <;>
    subst hset <;> exact ⟨rfl, rfl, rfl, rfl, rfl, rfl⟩

/-- Along any run of registry calls the Main and Testnet sets, the base entry of the
Regtest table and the protocol versions of the Regtest table stay as they were. -/
theorem runCalls_tables {β : Type} (SelectBaseParams : Network → β → Except Failure β)
    (NetworkIdFromCommandLine : Globals β → Network) (calls : List RegistryCall) :
    ∀ g g1 : Globals β,
      runCalls SelectBaseParams NetworkIdFromCommandLine calls g = .ok g1 →
      g1.mainParams = g.mainParams ∧ g1.testNetParams = g.testNetParams ∧
      g1.regTestParams.consensus.vUpgrades.BASE_SPROUT =
        g.regTestParams.consensus.vUpgrades.BASE_SPROUT ∧
      g1.regTestParams.consensus.vUpgrades.UPGRADE_TESTDUMMY.nProtocolVersion =
        g.regTestParams.consensus.vUpgrades.UPGRADE_TESTDUMMY.nProtocolVersion ∧
      g1.regTestParams.consensus.vUpgrades.UPGRADE_OVERWINTER.nProtocolVersion =
        g.regTestParams.consensus.vUpgrades.UPGRADE_OVERWINTER.nProtocolVersion ∧
      g1.regTestParams.consensus.vUpgrades.UPGRADE_SAPLING.nProtocolVersion =
        g.regTestParams.consensus.vUpgrades.UPGRADE_SAPLING.nProtocolVersion := by
  induction calls with
  | nil =>
    intro g g1 hrun
    simp only [runCalls, Except.ok.injEq] at hrun
    subst hrun
    exact ⟨rfl, rfl, rfl, rfl, rfl, rfl⟩
  | cons c rest ih =>
    intro g g1 hrun
    cases c with
    | select network =>
      simp only [runCalls] at hrun
      cases hsel : SelectParams SelectBaseParams network g with
      | error e => rw [hsel] at hrun; cases hrun
      | ok res =>
        obtain ⟨u, g2⟩ := res
        rw [hsel] at hrun
        obtain ⟨hm, ht, hv⟩ := SelectParams_tables SelectBaseParams network g g2 hsel
        obtain ⟨km, kt, k0, k1, k2, k3⟩ := ih g2 g1 hrun
        rw [hv] at k0 k1 k2 k3
        exact ⟨km.trans hm, kt.trans ht, k0, k1, k2, k3⟩
    | fromCommandLine =>
      simp only [runCalls, SelectParamsFromCommandLine] at hrun
      by_cases hmax : NetworkIdFromCommandLine g = .MAX_NETWORK_TYPES
      · rw [if_pos hmax] at hrun
        exact ih g g1 hrun
      · rw [if_neg hmax] at hrun
        cases hsel : SelectParams SelectBaseParams (NetworkIdFromCommandLine g) g with
        | error e => rw [hsel] at hrun; cases hrun
        | ok res =>
          obtain ⟨u, g2⟩ := res
          rw [hsel] at hrun
          obtain ⟨hm, ht, hv⟩ := SelectParams_tables SelectBaseParams _ g g2 hsel
          obtain ⟨km, kt, k0, k1, k2, k3⟩ := ih g2 g1 hrun
          rw [hv] at k0 k1 k2 k3
          exact ⟨km.trans hm, kt.trans ht, k0, k1, k2, k3⟩
    | updateUpgrade idx h =>
      simp only [runCalls] at hrun
      cases hup : UpdateNetworkUpgradeParameters idx h g with
      | error e => rw [hup] at hrun; cases hrun
      | ok res =>
        obtain ⟨u, g2⟩ := res
        rw [hup] at hrun
        obtain ⟨hm, ht, h0, h1, h2, h3⟩ := UpdateNetworkUpgradeParameters_tables idx h g g2 hup
        obtain ⟨km, kt, k0, k1, k2, k3⟩ := ih g2 g1 hrun
        exact ⟨km.trans hm, kt.trans ht, k0.trans h0, k1.trans h1, k2.trans h2, k3.trans h3⟩

/-- C17: in every state reached from the three constructed parameter sets by any
sequence of network selections and successful `UpdateNetworkUpgradeParameters` calls,
the `BASE_SPROUT` entry of every network's upgrade table has activation height
`ALWAYS_ACTIVE`. -/
theorem C17_base_era_always_active {β : Type}
    (SelectBaseParams : Network → β → Except Failure β)
    (NetworkIdFromCommandLine : Globals β → Network) (calls : List RegistryCall)
    (base : β) (mapArgs : List (String × String)) (g : Globals β)
    (hrun : runCalls SelectBaseParams NetworkIdFromCommandLine calls
      (initialGlobals base mapArgs) = .ok g) :
    activationHeight g.mainParams.consensus.vUpgrades .BASE_SPROUT =
      some Consensus.NetworkUpgrade.ALWAYS_ACTIVE ∧
    activationHeight g.testNetParams.consensus.vUpgrades .BASE_SPROUT =
      some Consensus.NetworkUpgrade.ALWAYS_ACTIVE ∧
    activationHeight g.regTestParams.consensus.vUpgrades .BASE_SPROUT =
      some Consensus.NetworkUpgrade.ALWAYS_ACTIVE := by
  obtain ⟨hm, ht, h0, -⟩ := runCalls_tables SelectBaseParams NetworkIdFromCommandLine calls
    (initialGlobals base mapArgs) g hrun
  refine ⟨?_, ?_, ?_⟩
  · rw [hm]; rfl
  · rw [ht]; rfl
  · simp only [activationHeight, Consensus.UpgradeArray.get?, Option.map_some', h0]
    rfl

theorem C17_base_era_always_active_witness :
    ∃ g : Globals Unit,
      runCalls sampleSelectBaseParams sampleNetworkIdFromCommandLine
        [.select .REGTEST, .updateUpgrade .UPGRADE_OVERWINTER 100, .fromCommandLine,
          .updateUpgrade .UPGRADE_TESTDUMMY 0, .select .MAIN]
        (initialGlobals () []) = .ok g ∧
      activationHeight g.mainParams.consensus.vUpgrades .BASE_SPROUT =
        some Consensus.NetworkUpgrade.ALWAYS_ACTIVE ∧
      activationHeight g.testNetParams.consensus.vUpgrades .BASE_SPROUT =
        some Consensus.NetworkUpgrade.ALWAYS_ACTIVE ∧
      activationHeight g.regTestParams.consensus.vUpgrades .BASE_SPROUT =
        some Consensus.NetworkUpgrade.ALWAYS_ACTIVE :=
  ⟨_, rfl, C17_base_era_always_active sampleSelectBaseParams sampleNetworkIdFromCommandLine
    [.select .REGTEST, .updateUpgrade .UPGRADE_OVERWINTER 100, .fromCommandLine,
      .updateUpgrade .UPGRADE_TESTDUMMY 0, .select .MAIN] () [] _ rfl⟩

/-- The scan of `protocolVersionAt` written out. -/
theorem protocolVersionAt_eq (a : Consensus.UpgradeArray) (x : Int) :
    protocolVersionAt a x =
      if a.UPGRADE_SAPLING.nActivationHeight ≠ Consensus.NetworkUpgrade.NO_ACTIVATION_HEIGHT ∧
          x ≥ a.UPGRADE_SAPLING.nActivationHeight then a.UPGRADE_SAPLING.nProtocolVersion
      else if a.UPGRADE_OVERWINTER.nActivationHeight ≠
            Consensus.NetworkUpgrade.NO_ACTIVATION_HEIGHT ∧
          x ≥ a.UPGRADE_OVERWINTER.nActivationHeight then a.UPGRADE_OVERWINTER.nProtocolVersion
      else if a.UPGRADE_TESTDUMMY.nActivationHeight ≠
            Consensus.NetworkUpgrade.NO_ACTIVATION_HEIGHT ∧
          x ≥ a.UPGRADE_TESTDUMMY.nActivationHeight then a.UPGRADE_TESTDUMMY.nProtocolVersion
      else a.BASE_SPROUT.nProtocolVersion := by
  unfold protocolVersionAt currentEpoch
  by_cases c3 : a.UPGRADE_SAPLING.nActivationHeight ≠
      Consensus.NetworkUpgrade.NO_ACTIVATION_HEIGHT ∧ x ≥ a.UPGRADE_SAPLING.nActivationHeight
  · simp [List.find?, isActivated, activationHeight, Consensus.UpgradeArray.get?, c3]
  · by_cases c2 : a.UPGRADE_OVERWINTER.nActivationHeight ≠
        Consensus.NetworkUpgrade.NO_ACTIVATION_HEIGHT ∧
        x ≥ a.UPGRADE_OVERWINTER.nActivationHeight
    · simp [List.find?, isActivated, activationHeight, Consensus.UpgradeArray.get?, c3, c2]
    · by_cases c1 : a.UPGRADE_TESTDUMMY.nActivationHeight ≠
          Consensus.NetworkUpgrade.NO_ACTIVATION_HEIGHT ∧
          x ≥ a.UPGRADE_TESTDUMMY.nActivationHeight
      · simp [List.find?, isActivated, activationHeight, Consensus.UpgradeArray.get?, c3, c2, c1]
      · by_cases c0 : a.BASE_SPROUT.nActivationHeight ≠
            Consensus.NetworkUpgrade.NO_ACTIVATION_HEIGHT ∧
            x ≥ a.BASE_SPROUT.nActivationHeight
        · simp [List.find?, isActivated, activationHeight, Consensus.UpgradeArray.get?, c3, c2,
            c1, c0]
        · simp [List.find?, isActivated, activationHeight, Consensus.UpgradeArray.get?, c3, c2,
            c1, c0]

/-- With protocol versions that do not decrease along the indices, `protocolVersionAt`
does not decrease along the heights, whatever the activation heights are. -/
theorem protocolVersionAt_mono (a : Consensus.UpgradeArray)
    (h01 : a.BASE_SPROUT.nProtocolVersion ≤ a.UPGRADE_TESTDUMMY.nProtocolVersion)
    (h12 : a.UPGRADE_TESTDUMMY.nProtocolVersion ≤ a.UPGRADE_OVERWINTER.nProtocolVersion)
    (h23 : a.UPGRADE_OVERWINTER.nProtocolVersion ≤ a.UPGRADE_SAPLING.nProtocolVersion)
    (x y : Int) (hxy : x ≤ y) : protocolVersionAt a x ≤ protocolVersionAt a y := by
  rw [protocolVersionAt_eq, protocolVersionAt_eq]
  split_ifs <;> omega

/-- C18: for the Main and Testnet upgrade tables, and for the Regtest table of every
state reached from the constructed one by registry calls (among them any sequence of
successful `UpdateNetworkUpgradeParameters` calls), `protocolVersionAt` is
non-decreasing in the height. -/
theorem C18_protocolVersion_monotone {β : Type}
    (SelectBaseParams : Network → β → Except Failure β)
    (NetworkIdFromCommandLine : Globals β → Network) (calls : List RegistryCall)
    (base : β) (mapArgs : List (String × String)) (g : Globals β)
    (hrun : runCalls SelectBaseParams NetworkIdFromCommandLine calls
      (initialGlobals base mapArgs) = .ok g)
    (h1 h2 : Int) (hle : h1 ≤ h2) :
    protocolVersionAt CMainParams.consensus.vUpgrades h1 ≤
      protocolVersionAt CMainParams.consensus.vUpgrades h2 ∧
    protocolVersionAt CTestNetParams.consensus.vUpgrades h1 ≤
      protocolVersionAt CTestNetParams.consensus.vUpgrades h2 ∧
    protocolVersionAt g.mainParams.consensus.vUpgrades h1 ≤
      protocolVersionAt g.mainParams.consensus.vUpgrades h2 ∧
    protocolVersionAt g.testNetParams.consensus.vUpgrades h1 ≤
      protocolVersionAt g.testNetParams.consensus.vUpgrades h2 ∧
    protocolVersionAt g.regTestParams.consensus.vUpgrades h1 ≤
      protocolVersionAt g.regTestParams.consensus.vUpgrades h2 := by
  obtain ⟨hm, ht, h0, k1, k2, k3⟩ := runCalls_tables SelectBaseParams
    NetworkIdFromCommandLine calls (initialGlobals base mapArgs) g hrun
  have mainMono := protocolVersionAt_mono CMainParams.consensus.vUpgrades (by decide)
    (by decide) (by decide) h1 h2 hle
  have testMono := protocolVersionAt_mono CTestNetParams.consensus.vUpgrades (by decide)
    (by decide) (by decide) h1 h2 hle
  refine ⟨mainMono, testMono, ?_, ?_, ?_⟩
  · rw [hm]; exact mainMono
  · rw [ht]; exact testMono
  · apply protocolVersionAt_mono _ _ _ _ h1 h2 hle
    · rw [h0, k1]
      show CRegTestParams.consensus.vUpgrades.BASE_SPROUT.nProtocolVersion ≤
        CRegTestParams.consensus.vUpgrades.UPGRADE_TESTDUMMY.nProtocolVersion
      decide
    · rw [k1, k2]
      show CRegTestParams.consensus.vUpgrades.UPGRADE_TESTDUMMY.nProtocolVersion ≤
        CRegTestParams.consensus.vUpgrades.UPGRADE_OVERWINTER.nProtocolVersion
      decide
    · rw [k2, k3]
      show CRegTestParams.consensus.vUpgrades.UPGRADE_OVERWINTER.nProtocolVersion ≤
        CRegTestParams.consensus.vUpgrades.UPGRADE_SAPLING.nProtocolVersion
      decide

theorem C18_protocolVersion_monotone_witness :
    (99 : Int) ≤ 100 ∧
    ∃ g : Globals Unit,
      runCalls sampleSelectBaseParams sampleNetworkIdFromCommandLine
        [.updateUpgrade .UPGRADE_SAPLING 50, .updateUpgrade .UPGRADE_OVERWINTER 100]
        (initialGlobals () []) = .ok g ∧
      protocolVersionAt g.regTestParams.consensus.vUpgrades 99 ≤
        protocolVersionAt g.regTestParams.consensus.vUpgrades 100 :=
  ⟨by decide, _, rfl,
    (C18_protocolVersion_monotone sampleSelectBaseParams sampleNetworkIdFromCommandLine
      [.updateUpgrade .UPGRADE_SAPLING 50, .updateUpgrade .UPGRADE_OVERWINTER 100] () [] _ rfl
      99 100 (by decide)).2.2.2.2⟩

/-- The protocol version on Main steps up at the two activation heights, and on a
Regtest table with Sapling stored below Overwinter the higher index wins. -/
theorem protocolVersionAt_samples :
    protocolVersionAt CMainParams.consensus.vUpgrades 0 = 170002 ∧
    protocolVersionAt CMainParams.consensus.vUpgrades 347499 = 170002 ∧
    protocolVersionAt CMainParams.consensus.vUpgrades 347500 = 170005 ∧
    protocolVersionAt CMainParams.consensus.vUpgrades 419199 = 170005 ∧
    protocolVersionAt CMainParams.consensus.vUpgrades 419200 = 170007 ∧
    protocolVersionAt CRegTestParams.consensus.vUpgrades 1000000 = 170002 := by
  refine ⟨?_, ?_, ?_, ?_, ?_, ?_⟩ <;> rw [protocolVersionAt_eq] <;> decide

/-! ## Metrics -/

/-- The stored value after `n` increments of a fresh counter. -/
theorem AtomicCounter.value_afterIncrements (n : Nat) :
    (AtomicCounter.afterIncrements n AtomicCounter.construct).value = n % UINT64_MODULUS := by
  induction n with
  | zero => rfl
  | succ n ih =>
    simp only [AtomicCounter.afterIncrements, AtomicCounter.increment, ih]
    unfold UINT64_MODULUS
    omega

/-- Below `2^31` increments `get()` is the number of increments. -/
theorem AtomicCounter.get_afterIncrements_small (n : Nat) (hn : n < 2 ^ 31) :
    (AtomicCounter.afterIncrements n AtomicCounter.construct).get = n := by
  simp only [AtomicCounter.get, AtomicCounter.value_afterIncrements, uint64ToInt]
  unfold UINT64_MODULUS
  omega

/-- A decrement after an increment restores the result of `get()`. -/
theorem AtomicCounter.get_decrement_increment (c : AtomicCounter) :
    c.increment.decrement.get = c.get := by
  simp only [AtomicCounter.get, AtomicCounter.increment, AtomicCounter.decrement, uint64ToInt]
  unfold UINT64_MODULUS
  omega

/-- C19: `get()` returns `int`, so the 64-bit value is narrowed to 32 bits: after `2^31`
increments of a fresh counter the stored value is `2^31` and `get()` is `-2^31`; below
`2^31` increments `get()` equals the number of increments, and a decrement following an
increment restores the previous `get()` result. -/
theorem C19_get_narrows_to_int :
    (AtomicCounter.afterIncrements (2 ^ 31) AtomicCounter.construct).value = 2 ^ 31 ∧
    (AtomicCounter.afterIncrements (2 ^ 31) AtomicCounter.construct).get = -(2 ^ 31) ∧
    (∀ n : Nat, n < 2 ^ 31 →
      (AtomicCounter.afterIncrements n AtomicCounter.construct).get = n) ∧
    (∀ c : AtomicCounter, c.increment.decrement.get = c.get) := by
  refine ⟨?_, ?_, AtomicCounter.get_afterIncrements_small,
    AtomicCounter.get_decrement_increment⟩
  · rw [AtomicCounter.value_afterIncrements]
    decide
  · simp only [AtomicCounter.get, AtomicCounter.value_afterIncrements, uint64ToInt]
    decide

/-- The timer after `n` starts of a fresh timer. -/
theorem AtomicTimer.afterStarts_construct (clock : Nat → Int) (n : Nat)
    (hn : n < UINT64_MODULUS) :
    AtomicTimer.afterStarts clock n AtomicTimer.construct =
      ⟨n, if n = 0 then 0 else clock 0, 0⟩ := by
  induction n with
  | zero => rfl
  | succ n ih =>
    have hlt : n < UINT64_MODULUS := by omega
    simp only [AtomicTimer.afterStarts, ih hlt, AtomicTimer.start]
    have hmod : (n + 1) % UINT64_MODULUS = n + 1 := Nat.mod_eq_of_lt hn
    rw [hmod]
    cases n with
    | zero => simp
    | succ m => simp

/-- The timer after `j ≤ k` stops that follow `k` starts. -/
theorem AtomicTimer.afterStops_counted (clock : Nat → Int) (k : Nat) (t0 : Int)
    (hk : k < UINT64_MODULUS) (j : Nat) (hj : j ≤ k) :
    AtomicTimer.afterStops clock j ⟨k, t0, 0⟩ =
      ⟨k - j, t0, if j = k ∧ 1 ≤ k then clock (k - 1) - t0 else 0⟩ := by
  induction j with
  | zero =>
    have : ¬ (0 = k ∧ 1 ≤ k) := by omega
    simp [AtomicTimer.afterStops, this]
  | succ j ih =>
    have hjk : j < k := hj
    have hne : ¬ (j = k ∧ 1 ≤ k) := by omega
    simp only [AtomicTimer.afterStops, ih (by omega), if_neg hne, AtomicTimer.stop]
    have hmod : (k - j + (UINT64_MODULUS - 1)) % UINT64_MODULUS = k - (j + 1) := by
      unfold UINT64_MODULUS at hk ⊢
      omega
    rw [hmod]
    by_cases hlast : j + 1 = k
    · have h1 : k - j = 1 := by omega
      have h2 : k - (j + 1) = 0 := by omega
      have h3 : k - 1 = j := by omega
      simp [h1, h2, h3, hlast]
      omega
    · have h1 : ¬ (k - j = 1 ∧ k - (j + 1) = 0) := by omega
      have h2 : ¬ (j + 1 = k ∧ 1 ≤ k) := by omega
      simp [h1, h2]

/-- C20: for a fresh timer and `k ≥ 1` (within the range of the thread count), `k`
calls of `start()` followed by `k` calls of `stop()` leave the accumulated total at 0
until the last stop, which adds the one interval (clock at the last stop − clock at the
first start); `running()` is true after every one of these calls except the last stop,
after which `threadCount()` is 0 and `running()` is false. -/
theorem C20_timer_one_interval (k : Nat) (hk : 1 ≤ k) (hmax : k < UINT64_MODULUS)
    (startClock stopClock : Nat → Int) :
    (∀ i, 1 ≤ i → i ≤ k →
      (AtomicTimer.afterStarts startClock i AtomicTimer.construct).running = true ∧
      (AtomicTimer.afterStarts startClock i AtomicTimer.construct).total_time = 0) ∧
    (∀ j, j < k →
      (AtomicTimer.afterStops stopClock j
        (AtomicTimer.afterStarts startClock k AtomicTimer.construct)).running = true ∧
      (AtomicTimer.afterStops stopClock j
        (AtomicTimer.afterStarts startClock k AtomicTimer.construct)).total_time = 0) ∧
    (AtomicTimer.afterStops stopClock k
        (AtomicTimer.afterStarts startClock k AtomicTimer.construct)).total_time =
      stopClock (k - 1) - startClock 0 ∧
    (AtomicTimer.afterStops stopClock k
        (AtomicTimer.afterStarts startClock k AtomicTimer.construct)).threadCount = 0 ∧
    (AtomicTimer.afterStops stopClock k
        (AtomicTimer.afterStarts startClock k AtomicTimer.construct)).running = false := by
  have hstarts : AtomicTimer.afterStarts startClock k AtomicTimer.construct =
      ⟨k, startClock 0, 0⟩ := by
    rw [AtomicTimer.afterStarts_construct startClock k hmax, if_neg (by omega)]
  refine ⟨?_, ?_, ?_, ?_, ?_⟩
  · intro i hi hik
    rw [AtomicTimer.afterStarts_construct startClock i (by omega)]
    exact ⟨decide_eq_true (by show 0 < i; omega), rfl⟩
  · intro j hj
    rw [hstarts, AtomicTimer.afterStops_counted stopClock k _ hmax j (by omega)]
    have hne : ¬ (j = k ∧ 1 ≤ k) := by omega
    exact ⟨decide_eq_true (by show 0 < k - j; omega), if_neg hne⟩
  · rw [hstarts, AtomicTimer.afterStops_counted stopClock k _ hmax k (le_refl k)]
    exact if_pos ⟨rfl, hk⟩
  · rw [hstarts, AtomicTimer.afterStops_counted stopClock k _ hmax k (le_refl k)]
    exact Nat.sub_self k
  · rw [hstarts, AtomicTimer.afterStops_counted stopClock k _ hmax k (le_refl k)]
    exact decide_eq_false (by show ¬ 0 < k - k; omega)

theorem C20_timer_one_interval_witness :
    (1 : Nat) ≤ 3 ∧ 3 < UINT64_MODULUS ∧
    (AtomicTimer.afterStops (fun j => 50 + 10 * j) 3
        (AtomicTimer.afterStarts (fun i => 7 + 2 * i) 3 AtomicTimer.construct)).total_time =
      (fun j : Nat => (50 + 10 * j : Int)) (3 - 1) - (fun i : Nat => (7 + 2 * i : Int)) 0 ∧
    (AtomicTimer.afterStops (fun j => 50 + 10 * j) 3
        (AtomicTimer.afterStarts (fun i => 7 + 2 * i) 3 AtomicTimer.construct)).threadCount = 0 ∧
    (AtomicTimer.afterStops (fun j => 50 + 10 * j) 3
        (AtomicTimer.afterStarts (fun i => 7 + 2 * i) 3 AtomicTimer.construct)).running = false :=
  ⟨by decide, by decide,
    (C20_timer_one_interval 3 (by decide) (by decide) (fun i => 7 + 2 * i)
      (fun j => 50 + 10 * j)).2.2⟩

/-- Three starts and three stops on a fresh timer, clock readings 7, 9, 11 and
50, 60, 70: the total is `70 − 7 = 63`, and the timer runs after the fifth call. -/
theorem AtomicTimer.three_threads_sample :
    (AtomicTimer.afterStops (fun j => 50 + 10 * j) 3
      (AtomicTimer.afterStarts (fun i => 7 + 2 * i) 3 AtomicTimer.construct)) = ⟨0, 7, 63⟩ ∧
    (AtomicTimer.afterStops (fun j => 50 + 10 * j) 2
      (AtomicTimer.afterStarts (fun i => 7 + 2 * i) 3 AtomicTimer.construct)) = ⟨1, 7, 0⟩ := by
  constructor <;> decide

/-! ## Construction-time assertions: the claims -/

/-- A window of targets, each at most `limit`, sums to at most `window * limit`. -/
theorem window_sum_le (limit : Nat) (targets : List Nat)
    (hle : ∀ t ∈ targets, t ≤ limit) : targets.sum ≤ targets.length * limit := by
  induction targets with
  | nil => simp
  | cons t rest ih =>
    have ht : t ≤ limit := hle t (List.mem_cons_self t rest)
    have hrest := ih (fun x hx => hle x (List.mem_cons_of_mem t hx))
    simp only [List.sum_cons, List.length_cons]
    have : (rest.length + 1) * limit = rest.length * limit + limit := by ring
    omega

/-- C22: on each of the three networks the construction-time assertion
`maxUint / powLimit ≥ nPowAveragingWindow` holds with the configured values (window 17;
`powLimit` `0007ff…ff` on Main, `07ff…ff` on Testnet, `0f0f…0f` on Regtest), so
`nPowAveragingWindow * powLimit ≤ 2^256 − 1` and the sum of one averaging window of
targets, each at most `powLimit`, stays below `2^256`. -/
theorem C22_pow_window_no_overflow :
    maxUint = 2 ^ 256 - 1 ∧
    (CMainParams.consensus.nPowAveragingWindow = 17 ∧
      CMainParams.consensus.powLimit = 2 ^ 243 - 1 ∧
      powAveragingWindowAssertion CMainParams.consensus = true ∧
      17 * CMainParams.consensus.powLimit ≤ 2 ^ 256 - 1 ∧
      ∀ targets : List Nat, targets.length = 17 →
        (∀ t ∈ targets, t ≤ CMainParams.consensus.powLimit) → targets.sum < 2 ^ 256) ∧
    (CTestNetParams.consensus.nPowAveragingWindow = 17 ∧
      CTestNetParams.consensus.powLimit = 2 ^ 251 - 1 ∧
      powAveragingWindowAssertion CTestNetParams.consensus = true ∧
      17 * CTestNetParams.consensus.powLimit ≤ 2 ^ 256 - 1 ∧
      ∀ targets : List Nat, targets.length = 17 →
        (∀ t ∈ targets, t ≤ CTestNetParams.consensus.powLimit) → targets.sum < 2 ^ 256) ∧
    (CRegTestParams.consensus.nPowAveragingWindow = 17 ∧
      17 * CRegTestParams.consensus.powLimit = 2 ^ 256 - 1 ∧
      powAveragingWindowAssertion CRegTestParams.consensus = true ∧
      17 * CRegTestParams.consensus.powLimit ≤ 2 ^ 256 - 1 ∧
      ∀ targets : List Nat, targets.length = 17 →
        (∀ t ∈ targets, t ≤ CRegTestParams.consensus.powLimit) → targets.sum < 2 ^ 256) := by
  have hmain : 17 * CMainParams.consensus.powLimit ≤ 2 ^ 256 - 1 := by decide
  have htest : 17 * CTestNetParams.consensus.powLimit ≤ 2 ^ 256 - 1 := by decide
  have hreg : 17 * CRegTestParams.consensus.powLimit ≤ 2 ^ 256 - 1 := by decide
  have hpos : 0 < 2 ^ 256 := by decide
  refine ⟨by decide, ⟨rfl, by decide, by decide, hmain, ?_⟩, ⟨rfl, by decide, by decide, htest, ?_⟩,
    ⟨rfl, by decide, by decide, hreg, ?_⟩⟩
  · intro targets hlen hle
    have h := window_sum_le _ targets hle
    rw [hlen] at h
    omega
  · intro targets hlen hle
    have h := window_sum_le _ targets hle
    rw [hlen] at h
    omega
  · intro targets hlen hle
    have h := window_sum_le _ targets hle
    rw [hlen] at h
    omega

/-- For a last reward height in the range of `int`, the size assertion of the Main
constructor says `addressCount ≤ lastRewardHeight`. -/
theorem foundersRewardSizeAssertion_iff (lastHeight : Consensus.Params → Int)
    (p : CChainParams) (hL0 : 0 ≤ lastHeight p.consensus)
    (hL : lastHeight p.consensus ≤ INT_MAX) :
    foundersRewardSizeAssertion lastHeight p = true ↔
      (p.vFoundersRewardAddress.length : Int) ≤ lastHeight p.consensus := by
  unfold foundersRewardSizeAssertion
  rw [toSizeT_of_range hL0 hL, decide_eq_true_iff]
  omega

/-- C21, as stated, fails: with 3 addresses and last reward height 3 (so
`1 ≤ addressCount ≤ lastRewardHeight`) the interval is `(3 + 3) / 3 = 2`, heights 1, 2, 3
select the indices 0, 1, 1, and index 2 is returned for no height in `[1, 3]`. -/
theorem C21_coverage_counterexample :
    (1 ≤ (sampleParams ["A0", "A1", "A2"]).vFoundersRewardAddress.length ∧
      ((sampleParams ["A0", "A1", "A2"]).vFoundersRewardAddress.length : Int) ≤ 3 ∧
      foundersRewardSizeAssertion (fun _ => 3) (sampleParams ["A0", "A1", "A2"]) = true) ∧
    foundersRewardIndex (fun _ => 3) (sampleParams ["A0", "A1", "A2"]) 1 = .ok 0 ∧
    foundersRewardIndex (fun _ => 3) (sampleParams ["A0", "A1", "A2"]) 2 = .ok 1 ∧
    foundersRewardIndex (fun _ => 3) (sampleParams ["A0", "A1", "A2"]) 3 = .ok 1 ∧
    ¬ ∃ h : Int, 1 ≤ h ∧ h ≤ 3 ∧
      foundersRewardIndex (fun _ => 3) (sampleParams ["A0", "A1", "A2"]) h = .ok 2 := by
  have e1 : foundersRewardIndex (fun _ => 3) (sampleParams ["A0", "A1", "A2"]) 1 = .ok 0 := by
    rw [foundersRewardIndex_eq _ _ 1 (by decide) (by decide) (by decide) (by decide)
      (by decide)]
    rfl
  have e2 : foundersRewardIndex (fun _ => 3) (sampleParams ["A0", "A1", "A2"]) 2 = .ok 1 := by
    rw [foundersRewardIndex_eq _ _ 2 (by decide) (by decide) (by decide) (by decide)
      (by decide)]
    rfl
  have e3 : foundersRewardIndex (fun _ => 3) (sampleParams ["A0", "A1", "A2"]) 3 = .ok 1 := by
    rw [foundersRewardIndex_eq _ _ 3 (by decide) (by decide) (by decide) (by decide)
      (by decide)]
    rfl
  refine ⟨⟨by decide, by decide, by decide⟩, e1, e2, e3, ?_⟩
  rintro ⟨h, h1, h3, hidx⟩
  have hcases : h = 1 ∨ h = 2 ∨ h = 3 := by omega
  rcases hcases with rfl | rfl | rfl
  · rw [e1] at hidx
    exact absurd (Except.ok.inj hidx) (by decide)
  · rw [e2] at hidx
    exact absurd (Except.ok.inj hidx) (by decide)
  · rw [e3] at hidx
    exact absurd (Except.ok.inj hidx) (by decide)

/-- C21 (amended): for a schedule with `1 ≤ addressCount ≤ lastRewardHeight`, every
index in `[0, addressCount − 1]` is returned for at least one height in
`[1, lastRewardHeight]` if and only if
`(addressCount − 1) * ((lastRewardHeight + addressCount) / addressCount)
≤ lastRewardHeight` (truncating division); index 0 is always returned, at height 1. -/
theorem C21_coverage_iff (lastHeight : Consensus.Params → Int) (p : CChainParams)
    (hn : 1 ≤ p.vFoundersRewardAddress.length)
    (hnL : (p.vFoundersRewardAddress.length : Int) ≤ lastHeight p.consensus)
    (hmax : p.vFoundersRewardAddress.length ≤ VECTOR_MAX_SIZE)
    (hL : lastHeight p.consensus ≤ INT_MAX) :
    foundersRewardIndex lastHeight p 1 = .ok 0 ∧
    ((∀ i : Nat, i < p.vFoundersRewardAddress.length →
        ∃ h : Int, 1 ≤ h ∧ h ≤ lastHeight p.consensus ∧
          foundersRewardIndex lastHeight p h = .ok i) ↔
      (p.vFoundersRewardAddress.length - 1) *
          (((lastHeight p.consensus).toNat + p.vFoundersRewardAddress.length)
            / p.vFoundersRewardAddress.length)
        ≤ (lastHeight p.consensus).toNat) := by
  have hL0 : 0 ≤ lastHeight p.consensus := by omega
  have hcast : ((lastHeight p.consensus).toNat : Int) = lastHeight p.consensus :=
    Int.toNat_of_nonneg hL0
  have hnL1 : p.vFoundersRewardAddress.length ≤ (lastHeight p.consensus).toNat := by omega
  generalize hI : ((lastHeight p.consensus).toNat + p.vFoundersRewardAddress.length)
    / p.vFoundersRewardAddress.length = I
  have hI2 : 2 ≤ I := by
    rw [← hI, Nat.add_div_right _ (by omega)]
    have : 1 ≤ (lastHeight p.consensus).toNat / p.vFoundersRewardAddress.length :=
      (Nat.one_le_div_iff (by omega)).mpr hnL1
    omega
  have hidx : ∀ h : Int, 1 ≤ h → h ≤ lastHeight p.consensus →
      foundersRewardIndex lastHeight p h = .ok (h.toNat / I) := by
    intro h h1 h2
    rw [foundersRewardIndex_eq lastHeight p h hn hmax hL h1 h2, hI]
  have hzero : foundersRewardIndex lastHeight p 1 = .ok 0 := by
    rw [hidx 1 (le_refl 1) (by omega)]
    have : (1 : Int).toNat / I = 0 := Nat.div_eq_of_lt (by simpa using hI2)
    rw [this]
  refine ⟨hzero, ?_, ?_⟩
  · intro hcover
    obtain ⟨h, h1, h2, hh⟩ := hcover (p.vFoundersRewardAddress.length - 1) (by omega)
    rw [hidx h h1 h2] at hh
    have hq : h.toNat / I = p.vFoundersRewardAddress.length - 1 := Except.ok.inj hh
    have hle : h.toNat / I * I ≤ h.toNat := Nat.div_mul_le_self _ _
    rw [hq] at hle
    have : h.toNat ≤ (lastHeight p.consensus).toNat := by omega
    omega
  · intro hbound i hi
    by_cases hi0 : i = 0
    · subst hi0
      exact ⟨1, le_refl 1, by omega, hzero⟩
    · have hiI : i * I ≤ (p.vFoundersRewardAddress.length - 1) * I :=
        Nat.mul_le_mul_right I (by omega)
      have hpos : 1 ≤ i * I := Nat.mul_pos (by omega) (by omega)
      refine ⟨((i * I : Nat) : Int), by omega, by omega, ?_⟩
      rw [hidx _ (by omega) (by omega), Int.toNat_ofNat, Nat.mul_div_cancel i (by omega)]

theorem C21_coverage_iff_witness :
    (1 ≤ (sampleParams ["A0", "A1", "A2", "A3"]).vFoundersRewardAddress.length ∧
      ((sampleParams ["A0", "A1", "A2", "A3"]).vFoundersRewardAddress.length : Int) ≤ 100) ∧
    foundersRewardIndex (fun _ => 100) (sampleParams ["A0", "A1", "A2", "A3"]) 1 = .ok 0 ∧
    ((∀ i : Nat, i < (sampleParams ["A0", "A1", "A2", "A3"]).vFoundersRewardAddress.length →
        ∃ h : Int, 1 ≤ h ∧ h ≤ 100 ∧
          foundersRewardIndex (fun _ => 100) (sampleParams ["A0", "A1", "A2", "A3"]) h
            = .ok i) ↔
      ((sampleParams ["A0", "A1", "A2", "A3"]).vFoundersRewardAddress.length - 1) *
          (((100 : Int).toNat +
              (sampleParams ["A0", "A1", "A2", "A3"]).vFoundersRewardAddress.length)
            / (sampleParams ["A0", "A1", "A2", "A3"]).vFoundersRewardAddress.length)
        ≤ (100 : Int).toNat) :=
  ⟨⟨by decide, by decide⟩,
    C21_coverage_iff (fun _ => 100) (sampleParams ["A0", "A1", "A2", "A3"])
      (by decide) (by decide) (by decide) (by decide)⟩

end Amicoin
